import Mathlib

/-!
# LuaCPP: the marshalling layer of `LuaCPP.hpp`, embedded in Lean

The development follows `src/LuaCPP.hpp`.

* The compile-time classifier (`Is_*`, `Get_Type`) is a function on `HostType`,
  a description of the C++ types the header can be instantiated with.
* The guest runtime (`lua_State`) is a value stack, a registry and a table of
  globals.  The runtime itself is the Lua library, which is not part of the
  header; the few API functions the header calls are modelled after the Lua
  5.4 reference manual, each under a comment that says so.
* `Peek`, `Pop`, `Push`, the `Tuple_*` and `Optional_*` helpers and `GetGlobal`
  are translated branch by branch.  A C++ out-parameter `T& value` becomes an
  argument (the content before the call) and the `value` field of the result
  (the content after it).
-/

namespace LuaCPP

/-! ## Enumerations -/

/-- The enumeration `LuaCPP::Types` (lines 19-31). -/
inductive Types
  | None
  | Null
  | Boolean
  | LightUserData
  | Number
  | String
  | Table
  | Function
  | UserData
  | Thread
  deriving DecidableEq, Repr

/-- The integer behind each enumerator: `LUA_TNONE` ... `LUA_TTHREAD` of `lua.h`. -/
def Types.toInt : Types → Int
  | .None => -1
  | .Null => 0
  | .Boolean => 1
  | .LightUserData => 2
  | .Number => 3
  | .String => 4
  | .Table => 5
  | .Function => 6
  | .UserData => 7
  | .Thread => 8

/-- The enumeration `LuaCPP::FunctionTypes` (lines 49-52). -/
inductive FunctionTypes
  | None
  | C
  | Lua
  deriving DecidableEq, Repr

/-! ## The type classifier -/

/-- The C++ types the classifier is asked about.  `int` stands for the integral
types other than `bool` and `char`, `double` for the floating-point types,
`object_ptr` for an object pointer other than `const char*`, `function_ptr` for
`R(*)(Args...)`, `class_type` for any class the header does not know. -/
inductive HostType
  | nullptr_t
  | bool
  | char
  | int
  | double
  | enumeration
  | std_string
  | std_string_view
  | const_char_ptr
  | object_ptr
  | function_ptr
  | Table
  | Function
  | Thread
  | UserData
  | Optional
  | tuple
  | class_type
  deriving DecidableEq, Repr

/-- The trait `std::is_integral`: `bool` and `char` are integral types. -/
def std_is_integral : HostType → Bool
  | .bool | .char | .int => true
  | _ => false

/-- The trait `std::is_pointer`: object pointers and function pointers. -/
def std_is_pointer : HostType → Bool
  | .const_char_ptr | .object_ptr | .function_ptr => true
  | _ => false

/-- `Is_Char` (lines 64-68). -/
def Is_Char (T : HostType) : Bool := T = .char

/-- `Is_Null` (lines 69-73). -/
def Is_Null (T : HostType) : Bool := T = .nullptr_t

/-- `Is_Number` (lines 74-81): enum, integral or floating point. -/
def Is_Number (T : HostType) : Bool :=
  decide (T = .enumeration) || std_is_integral T || decide (T = .double)

/-- `Is_Boolean` (lines 82-86). -/
def Is_Boolean (T : HostType) : Bool := T = .bool

/-- `Is_String` (lines 87-94). -/
def Is_String (T : HostType) : Bool :=
  decide (T = .std_string) || decide (T = .std_string_view) || decide (T = .const_char_ptr)

/-- `Is_CString` (lines 95-99). -/
def Is_CString (T : HostType) : Bool := T = .const_char_ptr

/-- `Is_StringView` (lines 100-104). -/
def Is_StringView (T : HostType) : Bool := T = .std_string_view

/-- `Is_Table` (lines 105-109). -/
def Is_Table (T : HostType) : Bool := T = .Table

/-- `Is_Tuple` (lines 110-119). -/
def Is_Tuple (T : HostType) : Bool := T = .tuple

/-- `Is_Function` (lines 120-129). -/
def Is_Function (T : HostType) : Bool := T = .Function

/-- `Is_CFunction` (lines 130-139). -/
def Is_CFunction (T : HostType) : Bool := T = .function_ptr

/-- `Is_Optional` (lines 140-149). -/
def Is_Optional (T : HostType) : Bool := T = .Optional

/-- `Is_Thread` (lines 150-154). -/
def Is_Thread (T : HostType) : Bool := T = .Thread

/-- `Is_UserData` (lines 155-164). -/
def Is_UserData (T : HostType) : Bool := T = .UserData

/-- `Is_LightUserData` (lines 165-169). -/
def Is_LightUserData (T : HostType) : Bool := std_is_pointer T

/-- `Get_Type` (lines 171-184): the chain of conditionals, in the source's order. -/
def Get_Type (T : HostType) : Types :=
  if Is_Null T then Types.Null
  else if Is_Number T then Types.Number
  else if Is_Boolean T then Types.Boolean
  else if Is_String T || Is_Char T then Types.String
  else if Is_Table T then Types.Table
  else if Is_Function T then Types.Function
  else if Is_Thread T then Types.Thread
  else if Is_UserData T then Types.UserData
  else if Is_LightUserData T then Types.LightUserData
  else Types.None

/-! ## Host values -/

/-- The part of `Function::Context` (lines 463-494) the marshaller reads: the
backing kind, the native closure (named by a number) and the registry
reference.  There is one runtime, so the `lua` pointer is left out. -/
structure Context where
  type : FunctionTypes
  function : Nat
  reference : Int
  deriving DecidableEq, Repr

/-- `Function<T(TArgs...)>` (lines 398-660): a handle on a `Context`. -/
structure Function where
  context : Context
  deriving DecidableEq, Repr

/-- `Optional<T>` (lines 662-708). -/
structure Optional (α : Type) where
  is_set : Bool
  value : α
  deriving DecidableEq, Repr

mutual
/-- The types `Peek`, `Pop` and `Push` have a branch for.  `int` stands for a
signed integral type, `pointer` for an object pointer other than `const char*`. -/
inductive Ty : Type
  | bool
  | char
  | int
  | double
  | string
  | string_view
  | cstring
  | pointer
  | function
  | optional (t : Ty)
  | tuple (ts : TyList)
/-- The element types of a `std::tuple`. -/
inductive TyList : Type
  | nil
  | cons (t : Ty) (ts : TyList)
end

/-- The C++ type a marshalled type is, as the classifier sees it. -/
def Ty.host : Ty → HostType
  | .bool => .bool
  | .char => .char
  | .int => .int
  | .double => .double
  | .string => .std_string
  | .string_view => .std_string_view
  | .cstring => .const_char_ptr
  | .pointer => .object_ptr
  | .function => .Function
  | .optional _ => .Optional
  | .tuple _ => .tuple

mutual
/-- The values of a marshalled type.  A `char` is a `Char`, a string a `String`
(one `Char` per byte), a pointer its address (0 is `nullptr`), a number of
floating-point type a rational. -/
def Val : Ty → Type
  | .bool => Bool
  | .char => Char
  | .int => Int
  | .double => ℚ
  | .string => String
  | .string_view => String
  | .cstring => String
  | .pointer => Nat
  | .function => Function
  | .optional t => Optional (Val t)
  | .tuple ts => Vals ts
/-- The values of a tuple: one value per element type. -/
def Vals : TyList → Type
  | .nil => Unit
  | .cons t ts => Val t × Vals ts
end

mutual
/-- Equality of host values is decidable. -/
def Val.decEq : (T : Ty) → DecidableEq (Val T)
  | .bool => (inferInstance : DecidableEq Bool)
  | .char => (inferInstance : DecidableEq Char)
  | .int => (inferInstance : DecidableEq Int)
  | .double => (inferInstance : DecidableEq ℚ)
  | .string => (inferInstance : DecidableEq String)
  | .string_view => (inferInstance : DecidableEq String)
  | .cstring => (inferInstance : DecidableEq String)
  | .pointer => (inferInstance : DecidableEq Nat)
  | .function => (inferInstance : DecidableEq Function)
  | .optional t => @instDecidableEqOptional _ (Val.decEq t)
  | .tuple ts => Vals.decEq ts
/-- Equality of tuples of host values is decidable. -/
def Vals.decEq : (ts : TyList) → DecidableEq (Vals ts)
  | .nil => (inferInstance : DecidableEq Unit)
  | .cons t ts => @instDecidableEqProd _ _ (Val.decEq t) (Vals.decEq ts)
end

instance (T : Ty) : DecidableEq (Val T) := Val.decEq T

instance (ts : TyList) : DecidableEq (Vals ts) := Vals.decEq ts

/-! ## The guest runtime

The runtime is the Lua library.  What follows models the API functions the
header calls, after the Lua 5.4 reference manual. -/

/-- The type `lua_Number` of `luaconf.h` (a `double`): the finite values, as rationals. -/
abbrev lua_Number := ℚ

/-- A value of the runtime.  Numbers have the two subtypes of Lua 5.3 and later.
A C closure made by `Push` keeps the `Context` its one upvalue points to; a
guest function, table, full userdata block or thread is named by a number. -/
inductive LuaValue
  | nil
  | boolean (b : Bool)
  | lightuserdata (p : Nat)
  | integer (i : Int)
  | number (n : lua_Number)
  | string (s : String)
  | table (id : Nat)
  | cclosure (upvalue : Context)
  | lfunction (id : Nat)
  | userdata (block : Nat)
  | thread (id : Nat)
  deriving DecidableEq, Repr

/-- The type tag `lua_type` reports for a value. -/
def LuaValue.type : LuaValue → Types
  | .nil => .Null
  | .boolean _ => .Boolean
  | .lightuserdata _ => .LightUserData
  | .integer _ => .Number
  | .number _ => .Number
  | .string _ => .String
  | .table _ => .Table
  | .cclosure _ => .Function
  | .lfunction _ => .Function
  | .userdata _ => .UserData
  | .thread _ => .Thread

/-- The state behind a `lua_State*`: the value stack, bottom first (stack index 1
is the head of the list); the registry, where reference `r` names the entry
`r - 1`; the global variables that are defined. -/
structure lua_State where
  stack : List LuaValue
  registry : List LuaValue
  globals : List (String × LuaValue)
  deriving DecidableEq, Repr

/-- The conversions between numbers and strings of the runtime (`lobject.c`).
They are not part of the header and are taken as parameters. -/
structure Conversions where
  /-- the text of an integer -/
  integer2str : Int → String
  /-- the text of a float -/
  number2str : lua_Number → String
  /-- the number a string converts to, when it has the form of a numeral -/
  str2number : String → Option lua_Number

/-- The constant `LUA_REFNIL` of `lauxlib.h`. -/
def LUA_REFNIL : Int := -1

/-- The number of binary digits of `n`; `fuel` bounds the number of halvings. -/
def bitLength : Nat → Nat → Nat
  | 0, _ => 0
  | fuel + 1, n => if n = 0 then 0 else bitLength fuel (n / 2) + 1

/-- The conversion `static_cast<lua_Number>(v)` of an integer: the nearest
`double`.  A `double` has 53 significant bits, so the low `e` bits of a longer
magnitude are rounded away, ties going to the even significand. -/
def roundToDouble (v : Int) : lua_Number :=
  let a := v.natAbs
  let e := bitLength a a - 53
  let q := a / 2 ^ e
  let r := a % 2 ^ e
  let half := 2 ^ e / 2
  let m := if half < r ∨ (r = half ∧ 0 < e ∧ q % 2 = 1) then q + 1 else q
  if v < 0 then ((-(Int.ofNat (m * 2 ^ e)) : Int) : ℚ) else ((Int.ofNat (m * 2 ^ e) : Int) : ℚ)

/-- The conversion `static_cast<lua_Number>(b)` of a `bool`: 1 or 0. -/
def boolToNumber (b : Bool) : lua_Number := if b then 1 else 0

/-- The conversion `static_cast<T>(n)` of a number to an integral type:
the fraction is dropped.  (Outside the range of `T` C++ leaves it undefined.) -/
def truncate (n : lua_Number) : Int := Int.tdiv n.num n.den

/-- A C string ends at its first NUL. -/
def c_str (s : String) : String :=
  String.mk (s.data.takeWhile (fun c => c ≠ Char.ofNat 0))

/-- The slot at a positive stack index, if the stack is that high. -/
def slot (L : lua_State) : Nat → Option LuaValue
  | 0 => none
  | i + 1 => L.stack[i]?

/-- The API function `lua_gettop`. -/
def lua_gettop (L : lua_State) : Nat := L.stack.length

/-- The API function `lua_type`: `LUA_TNONE` for a slot that is not there. -/
def lua_type (L : lua_State) (index : Nat) : Types :=
  match slot L index with
  | some v => v.type
  | none => .None

/-- The macro `lua_pop(L, n)`: the top `n` slots go. -/
def lua_pop (L : lua_State) (n : Nat) : lua_State :=
  { L with stack := L.stack.take (L.stack.length - n) }

/-- Every `lua_push*` function adds one slot on top. -/
def push (L : lua_State) (v : LuaValue) : lua_State :=
  { L with stack := L.stack ++ [v] }

/-- The API function `lua_pushnil`. -/
def lua_pushnil (L : lua_State) : lua_State := push L .nil

/-- The API function `lua_pushnumber`: pushes a float. -/
def lua_pushnumber (L : lua_State) (n : lua_Number) : lua_State := push L (.number n)

/-- The API function `lua_pushlstring`: the bytes given, embedded NULs included. -/
def lua_pushlstring (L : lua_State) (s : String) : lua_State := push L (.string s)

/-- The API function `lua_pushstring`: the bytes up to the first NUL. -/
def lua_pushstring (L : lua_State) (s : String) : lua_State := push L (.string (c_str s))

/-- The API function `lua_pushlightuserdata`. -/
def lua_pushlightuserdata (L : lua_State) (p : Nat) : lua_State := push L (.lightuserdata p)

/-- The API function `lua_pushvalue`: a copy of the slot at `index` goes on top. -/
def lua_pushvalue (L : lua_State) (index : Nat) : lua_State :=
  push L ((slot L index).getD .nil)

/-- The API function `lua_tonumber`: the number in the slot, the number a string
in the slot converts to, and 0 for everything else. -/
def lua_tonumber (cv : Conversions) (L : lua_State) (index : Nat) : lua_Number :=
  match slot L index with
  | some (.number n) => n
  | some (.integer i) => roundToDouble i
  | some (.string s) => (cv.str2number s).getD 0
  | _ => 0

/-- The API function `lua_tolstring`: the string in the slot; a number in the
slot is converted to a string *in the slot* and that string is returned;
`NULL` (here `none`) for everything else. -/
def lua_tolstring (cv : Conversions) (L : lua_State) (index : Nat) : Option String × lua_State :=
  match slot L index with
  | some (.string s) => (some s, L)
  | some (.integer i) =>
      (some (cv.integer2str i), { L with stack := L.stack.set (index - 1) (.string (cv.integer2str i)) })
  | some (.number n) =>
      (some (cv.number2str n), { L with stack := L.stack.set (index - 1) (.string (cv.number2str n)) })
  | _ => (none, L)

/-- The API function `lua_touserdata`: the block address of a full userdata, the
pointer of a light userdata, `NULL` (here 0) for everything else. -/
def lua_touserdata (L : lua_State) (index : Nat) : Nat :=
  match slot L index with
  | some (.userdata b) => b
  | some (.lightuserdata p) => p
  | _ => 0

/-- The macro `lua_isnil`. -/
def lua_isnil (L : lua_State) (index : Nat) : Bool := lua_type L index = .Null

/-- The function `luaL_ref(L, LUA_REGISTRYINDEX)`: pops the top value; for `nil`
the answer is `LUA_REFNIL`, otherwise the value is stored in the registry under
a reference no other value has, and that reference is the answer. -/
def luaL_ref (L : lua_State) : Int × lua_State :=
  match L.stack.getLast? with
  | none => (LUA_REFNIL, L)
  | some .nil => (LUA_REFNIL, lua_pop L 1)
  | some v => ((L.registry.length + 1 : Nat), { lua_pop L 1 with registry := L.registry ++ [v] })

/-- The value the registry holds under a reference: `nil` when it holds none. -/
def registryGet (L : lua_State) (reference : Int) : LuaValue :=
  if reference ≤ 0 then .nil else (L.registry[(reference - 1).toNat]?).getD .nil

/-- The API function `lua_rawgeti(L, LUA_REGISTRYINDEX, n)`: pushes the value
and returns its type. -/
def lua_rawgeti (L : lua_State) (reference : Int) : Types × lua_State :=
  ((registryGet L reference).type, push L (registryGet L reference))

/-- The value of a global variable: `nil` when the name is not defined. -/
def globalGet (L : lua_State) (name : String) : LuaValue :=
  ((L.globals.find? (fun g => g.1 = name)).map (fun g => g.2)).getD .nil

/-- The API function `lua_getglobal`: pushes the value of the global and returns
its type. -/
def lua_getglobal (L : lua_State) (name : String) : Types × lua_State :=
  ((globalGet L name).type, push L (globalGet L name))

/-- The two API calls of the `FunctionTypes::C` branch of `Push` (lines 1141-1142):
`lua_pushlightuserdata` of the context pointer, then `lua_pushcclosure` with one
upvalue, which takes that slot off again and pushes the closure. -/
def lua_pushcclosure_ExecuteC (L : lua_State) (ctx : Context) : lua_State :=
  push L (.cclosure ctx)

/-! ## The marshaller -/

/-- What a call with an out-parameter leaves behind: the `bool` it returns, the
content of `value` after the call, and the runtime after the call. -/
structure Out (α : Type) where
  ok : Bool
  value : α
  lua : lua_State
  deriving DecidableEq

/-- `Optional_Peek` (lines 1280-1286): `is_set` takes the result of
`Peek<T>(lua, index, value.value)`, here `peek`, and the answer is `true`. -/
def Optional_Peek {α : Type} (peek : α → Out α) (value : Optional α) : Out (Optional α) :=
  let r := peek value.value
  ⟨true, ⟨r.ok, r.value⟩, r.lua⟩

/-- `Optional_Pop` (lines 1273-1279): `is_set` takes the result of
`Pop<T>(lua, value.value)`, here `pop`, and the answer is `true`. -/
def Optional_Pop {α : Type} (pop : α → Out α) (value : Optional α) : Out (Optional α) :=
  let r := pop value.value
  ⟨true, ⟨r.ok, r.value⟩, r.lua⟩

mutual
/-- `Peek` (lines 1001-1094).  The branches are the source's; which one a type
takes follows the order of the `if constexpr` chain: `char` takes `Is_Char`,
then `bool`, `int` and `double` take `Is_Number` (a `bool` is integral, so the
`Is_Boolean` branch with its `lua_toboolean` is never taken), then the strings,
tuples, functions, optionals and pointers.  A previous `Context` of a `Function` out-parameter is
dropped without effect on the registry. -/
def Peek (cv : Conversions) : (T : Ty) → lua_State → Nat → Val T → Out (Val T)
  | .optional t, L, index, value => Optional_Peek (Peek cv t L index) value
  | .char, L, index, value =>
      if index > lua_gettop L then ⟨false, value, L⟩
      else
        match lua_tolstring cv L index with
        | (some string, L1) => ⟨true, string.data.headD (Char.ofNat 0), L1⟩
        | (none, L1) => ⟨false, value, L1⟩
  | .bool, L, index, value =>
      if index > lua_gettop L then ⟨false, value, L⟩
      else ⟨true, decide (lua_tonumber cv L index ≠ 0), L⟩
  | .int, L, index, value =>
      if index > lua_gettop L then ⟨false, value, L⟩
      else ⟨true, truncate (lua_tonumber cv L index), L⟩
  | .double, L, index, value =>
      if index > lua_gettop L then ⟨false, value, L⟩
      else ⟨true, lua_tonumber cv L index, L⟩
  | .cstring, L, index, value =>
      if index > lua_gettop L then ⟨false, value, L⟩
      else
        match lua_tolstring cv L index with
        | (some string, L1) => ⟨true, c_str string, L1⟩
        | (none, L1) => ⟨false, value, L1⟩
  | .string_view, L, index, value =>
      if index > lua_gettop L then ⟨false, value, L⟩
      else
        match lua_tolstring cv L index with
        | (some string, L1) => ⟨true, string, L1⟩
        | (none, L1) => ⟨false, value, L1⟩
  | .string, L, index, value =>
      if index > lua_gettop L then ⟨false, value, L⟩
      else
        match lua_tolstring cv L index with
        | (some string, L1) => ⟨true, string, L1⟩
        | (none, L1) => ⟨false, value, L1⟩
  | .tuple ts, L, index, value =>
      if index > lua_gettop L then ⟨false, value, L⟩
      else Tuple_Peek cv ts L index 0 value
  | .function, L, index, value =>
      if index > lua_gettop L then ⟨false, value, L⟩
      else
        let L1 := lua_pushvalue L index
        let (reference, L2) := luaL_ref L1
        if reference ≠ LUA_REFNIL then ⟨true, ⟨⟨.Lua, 0, reference⟩⟩, L2⟩
        else ⟨false, value, lua_pop L2 1⟩
  | .pointer, L, index, value =>
      if index > lua_gettop L then ⟨false, value, L⟩
      else
        let data := lua_touserdata L index
        if data ≠ 0 then ⟨true, data, L⟩
        else if lua_isnil L index then ⟨true, (0 : Nat), L⟩
        else ⟨false, value, L⟩
/-- `Tuple_Peek` (lines 1252-1261): the fold of `&&` over
`Peek<T_I>(lua, index + I, std::get<I>(value))`, for `I` counting up from the
argument `I`; an element after a failed one is not peeked. -/
def Tuple_Peek (cv : Conversions) : (ts : TyList) → lua_State → Nat → Nat → Vals ts → Out (Vals ts)
  | .nil, L, _, _, value => ⟨true, value, L⟩
  | .cons t ts, L, index, I, (v, vs) =>
      let r := Peek cv t L (index + I) v
      if r.ok then
        let rs := Tuple_Peek cv ts r.lua index (I + 1) vs
        ⟨rs.ok, (r.value, rs.value), rs.lua⟩
      else ⟨false, (r.value, vs), r.lua⟩
end

/-- The last branch of `Pop` (lines 976-978 and 986-994), taken by every type
that is neither a tuple nor an `Optional`: nothing on an empty stack; otherwise
`Peek<T>(lua, 1, value)` and, when that succeeds, `lua_pop(lua, 1)`. -/
def Pop_leaf (cv : Conversions) (T : Ty) (L : lua_State) (value : Val T) : Out (Val T) :=
  if lua_gettop L = 0 then ⟨false, value, L⟩
  else
    let r := Peek cv T L 1 value
    if !r.ok then ⟨false, r.value, r.lua⟩
    else ⟨true, r.value, lua_pop r.lua 1⟩

/-- The `static_assert(Get_Type<T>::Value != Types::None)` at the head of `Pop`
(line 974), as a condition on the type argument: `Pop<T>` is instantiated only
for a type the classifier gives a category. -/
class Classified (T : Ty) : Prop where
  static_assert : Get_Type T.host ≠ Types.None

instance : Classified .bool := ⟨by decide⟩

instance : Classified .char := ⟨by decide⟩

instance : Classified .int := ⟨by decide⟩

instance : Classified .double := ⟨by decide⟩

instance : Classified .string := ⟨by decide⟩

instance : Classified .string_view := ⟨by decide⟩

instance : Classified .cstring := ⟨by decide⟩

instance : Classified .pointer := ⟨by decide⟩

instance : Classified .function := ⟨by decide⟩

/-- `Pop` (lines 971-995), for a type its `static_assert` admits.  `Get_Type`
gives a tuple and an `Optional` the category `None`, so the `Is_Tuple` and
`Is_Optional` branches (lines 982-985) are never instantiated: there is no
`Pop` of a tuple or of an `Optional`, and no call of `Tuple_Pop` (whose inner
overload, lines 1247-1251, is declared `void` and returns a value) or of
`Optional_Pop`.  Every other type takes the last branch. -/
def Pop (cv : Conversions) (T : Ty) [inst : Classified T] (L : lua_State) (value : Val T) :
    Out (Val T) :=
  match T, inst, value with
  | .optional _, inst, _ => absurd rfl inst.static_assert
  | .tuple _, inst, _ => absurd rfl inst.static_assert
  | .bool, _, value => Pop_leaf cv .bool L value
  | .char, _, value => Pop_leaf cv .char L value
  | .int, _, value => Pop_leaf cv .int L value
  | .double, _, value => Pop_leaf cv .double L value
  | .string, _, value => Pop_leaf cv .string L value
  | .string_view, _, value => Pop_leaf cv .string_view L value
  | .cstring, _, value => Pop_leaf cv .cstring L value
  | .pointer, _, value => Pop_leaf cv .pointer L value
  | .function, _, value => Pop_leaf cv .function L value

/-- How a call of `Push` ends: it returns a slot count, or it throws a
`LuaCPP::Exception` with the message `what`; either way the runtime is left
in the state `lua`. -/
inductive Pushed
  | returned (count : Nat) (lua : lua_State)
  | thrown (what : String) (lua : lua_State)
  deriving DecidableEq, Repr

/-- The constructor `Exception(function, message)` (lines 253-256): the text of `what()`. -/
def Exception (function message : String) : String :=
  message ++ " [Function: " ++ function ++ "]"

/-- `Optional_Push` (lines 1287-1291): `value ? Push<T>(lua, *value) : 0`. -/
def Optional_Push {α : Type} (pushInner : lua_State → α → Pushed) (L : lua_State)
    (value : Optional α) : Pushed :=
  if value.is_set then pushInner L value.value else .returned 0 L

mutual
/-- `Push` (lines 1096-1172), in the order of the `if constexpr` chain: `char`
takes `Is_Char`; `bool`, `int` and `double` take `Is_Number`, so each is pushed
with `lua_pushnumber` (the `Is_Boolean` branch with its `lua_pushboolean` is
never taken); then the strings, tuples, functions, optionals and pointers. -/
def Push : (T : Ty) → lua_State → Val T → Pushed
  | .char, L, value => .returned 1 (lua_pushlstring L (String.singleton value))
  | .bool, L, value => .returned 1 (lua_pushnumber L (boolToNumber value))
  | .int, L, value => .returned 1 (lua_pushnumber L (roundToDouble value))
  | .double, L, value => .returned 1 (lua_pushnumber L value)
  | .cstring, L, value => .returned 1 (lua_pushstring L value)
  | .string_view, L, value => .returned 1 (lua_pushlstring L value)
  | .string, L, value => .returned 1 (lua_pushlstring L value)
  | .tuple ts, L, value => Tuple_Push ts L value
  | .function, L, value =>
      match value.context.type with
      | .C => .returned 1 (lua_pushcclosure_ExecuteC L value.context)
      | .Lua =>
          let (value_type, L1) := lua_rawgeti L value.context.reference
          if value_type ≠ Types.Function then
            .thrown (Exception "LuaCPP::Push" ("lua_rawgeti returned " ++ toString value_type.toInt)) L1
          else .returned 1 L1
      | .None => .returned 0 L
  | .optional t, L, value => Optional_Push (Push t) L value
  | .pointer, L, value =>
      if value = (0 : Nat) then .returned 1 (lua_pushnil L)
      else .returned 1 (lua_pushlightuserdata L value)
/-- `Tuple_Push` (lines 1262-1271): the fold of `+` over
`Push<T>(lua, std::get<I>(value))`.  C++ does not fix the order in which the
operands of `+` are evaluated; the model takes them in the order they are
written, from left to right.  An exception of an element ends the fold. -/
def Tuple_Push : (ts : TyList) → lua_State → Vals ts → Pushed
  | .nil, L, _ => .returned 0 L
  | .cons t ts, L, (v, vs) =>
      match Push t L v with
      | .thrown what L1 => .thrown what L1
      | .returned count L1 =>
          match Tuple_Push ts L1 vs with
          | .thrown what L2 => .thrown what L2
          | .returned rest L2 => .returned (count + rest) L2
end

/-! ## Globals -/

/-- The first `GetGlobal` (lines 830-856), for a type that is not a `Function`:
the `int` it returns, `value` after the call and the runtime after the call.
The source's last step, `value = Pop<T>(GetHandle())`, is read as the call
`Pop(GetHandle(), value)`; where it is reached the type of the global is the
category of `T`, so the `static_assert` of `Pop` holds. -/
def GetGlobal (cv : Conversions) (T : Ty) (L : lua_State) (name : String) (value : Val T) :
    Int × Val T × lua_State :=
  let (type, L1) := lua_getglobal L name
  if hn : type = Types.None then (0, value, L1)
  else if ht : type ≠ Get_Type T.host then (-1, value, lua_pop L1 1)
  else
    have : Classified T := ⟨fun h => hn ((Decidable.not_not.mp ht).trans h)⟩
    let r := Pop cv T L1 value
    (1, r.value, r.lua)

/-- The second `GetGlobal` (lines 857-882), for a `Function`. -/
def GetGlobal_Function (L : lua_State) (name : String) (value : Function) :
    Int × Function × lua_State :=
  let (type, L1) := lua_getglobal L name
  if type = Types.None then (0, value, L1)
  else if type ≠ Types.Function then (-1, value, lua_pop L1 1)
  else
    let L2 := lua_pushvalue L1 1
    let (reference, L3) := luaL_ref L2
    (1, ⟨⟨.Lua, 0, reference⟩⟩, L3)

/-- `GetGlobalType` (lines 884-895). -/
def GetGlobalType (L : lua_State) (name : String) : Types × lua_State :=
  let (type, L1) := lua_getglobal L name
  if type ≠ Types.None then (type, lua_pop L1 1) else (type, L1)

/-! ## A runtime to compute with -/

/-- Conversions for worked examples: decimal text for integers and for floats
that are whole, and only "0" and "1" read back as numbers. -/
def sampleConversions : Conversions where
  integer2str := fun i => toString i
  number2str := fun n => toString n.num
  str2number := fun s => if s = "0" then some 0 else if s = "1" then some 1 else none

/-- The runtime with an empty stack, an empty registry and no global. -/
def emptyState : lua_State := ⟨[], [], []⟩

/-- The type `std::tuple<int, int, int>`. -/
def tuple_int3 : Ty := .tuple (.cons .int (.cons .int (.cons .int .nil)))

/-- The type `std::tuple<std::tuple<int, int>, int>`. -/
def tuple_nested : Ty := .tuple (.cons (.tuple (.cons .int (.cons .int .nil))) (.cons .int .nil))

/-- A runtime whose stack holds the given values and nothing else. -/
def stackOf (vs : List LuaValue) : lua_State := ⟨vs, [], []⟩

/-- A `Function` as its default constructor leaves it (lines 504-507). -/
def emptyFunction : Function := ⟨⟨.None, 0, 0⟩⟩

/-- An integer that `lua_Number` represents exactly: the conversion to
`lua_Number` does not round it. -/
def ExactlyRepresented (v : Int) : Prop := roundToDouble v = ((v : Int) : ℚ)

/-- A string that holds no NUL, so that it is a C string as a whole. -/
def NulFree (s : String) : Prop := c_str s = s

/-- The values the scalar round trip is stated for: every `bool`, `char`,
`std::string`, `std::string_view`, `double` and object pointer (the null
pointer included); an integer that `lua_Number` represents exactly; a C string
that holds no NUL.  Functions, optionals and tuples are not scalars. -/
def RoundTrips : (T : Ty) → Val T → Prop
  | .bool, _ => True
  | .char, _ => True
  | .int, v => ExactlyRepresented v
  | .double, _ => True
  | .string, _ => True
  | .string_view, _ => True
  | .cstring, v => NulFree v
  | .pointer, _ => True
  | .function, _ => False
  | .optional _, _ => False
  | .tuple _, _ => False

/-- The leaf types: every marshalled type but the tuples and the optionals. -/
def Ty.leaf : Ty → Bool
  | .optional _ => false
  | .tuple _ => false
  | _ => true

/-- The statement of claim C6 about a slot of the wrong runtime type, at one
type, runtime and index: if the slot holds a value whose runtime type is not
the category `Get_Type` gives `T`, `Peek` returns `false`. -/
def RejectsWrongType (cv : Conversions) (T : Ty) (L : lua_State) (index : Nat) : Prop :=
  ∀ v : LuaValue, slot L index = some v → v.type ≠ Get_Type T.host →
    ∀ value : Val T, (Peek cv T L index value).ok = false

/-- The values a leaf type takes from a slot, in the words of the amended claim
C6: an integer or floating-point type takes every value; a `char` or string
type takes strings and numbers; a pointer takes `nil` and a userdata, light or
full, of non-null address; a `Function` takes every value but `nil`.  (The
amended claim says nothing of `bool`, tuples and optionals; their lines are not
used.) -/
def accepts : Ty → LuaValue → Bool
  | .bool, _ => true
  | .int, _ => true
  | .double, _ => true
  | .char, v => decide (v.type = Types.String) || decide (v.type = Types.Number)
  | .string, v => decide (v.type = Types.String) || decide (v.type = Types.Number)
  | .string_view, v => decide (v.type = Types.String) || decide (v.type = Types.Number)
  | .cstring, v => decide (v.type = Types.String) || decide (v.type = Types.Number)
  | .pointer, .nil => true
  | .pointer, .userdata block => decide (block ≠ 0)
  | .pointer, .lightuserdata p => decide (p ≠ 0)
  | .pointer, _ => false
  | .function, v => decide (v ≠ LuaValue.nil)
  | .optional _, _ => true
  | .tuple _, _ => false

mutual
/-- The slot count of a value, in the words of the specification: 1 for a
scalar, 0 for an `Optional` that is not set and the count of the inner value
for one that is, the sum of the elements' counts for a tuple; a `Function` has
one slot unless its descriptor is empty. -/
def slotCount : (T : Ty) → Val T → Nat
  | .bool, _ => 1
  | .char, _ => 1
  | .int, _ => 1
  | .double, _ => 1
  | .string, _ => 1
  | .string_view, _ => 1
  | .cstring, _ => 1
  | .pointer, _ => 1
  | .function, f => if f.context.type = FunctionTypes.None then 0 else 1
  | .optional t, o => if o.is_set then slotCount t o.value else 0
  | .tuple ts, vs => slotCounts ts vs
/-- The sum of the slot counts of the elements of a tuple. -/
def slotCounts : (ts : TyList) → Vals ts → Nat
  | .nil, _ => 0
  | .cons t ts, (v, vs) => slotCount t v + slotCounts ts vs
end

mutual
/-- No `Function` occurs in the type. -/
def Ty.functionFree : Ty → Bool
  | .function => false
  | .optional t => t.functionFree
  | .tuple ts => ts.functionFree
  | _ => true
/-- No `Function` occurs in the element types. -/
def TyList.functionFree : TyList → Bool
  | .nil => true
  | .cons t ts => t.functionFree && ts.functionFree
end

/-- The number of elements of a tuple type. -/
def TyList.length : TyList → Nat
  | .nil => 0
  | .cons _ ts => ts.length + 1

/-- Every element type is a leaf type other than `Function`: a scalar. -/
def TyList.scalars : TyList → Bool
  | .nil => true
  | .cons t ts => t.leaf && t.functionFree && ts.scalars

/-- The elements of a tuple are written from left to right, each directly above
the previous one: from `L`, `Push` of the first element returns the first count
and leaves its slots `b`, as many as the count, on top of the stack of `L`; the
remaining elements are written the same way from there; `L'` is where the last
one ends. -/
def ElementsPushed : (ts : TyList) → lua_State → Vals ts → List Nat → lua_State → Prop
  | .nil, L, _, counts, L' => counts = [] ∧ L' = L
  | .cons t ts, L, (v, vs), counts, L' =>
      ∃ (c : Nat) (cs : List Nat) (b : List LuaValue),
        counts = c :: cs
          ∧ Push t L v = .returned c { L with stack := L.stack ++ b }
          ∧ b.length = c
          ∧ ElementsPushed ts { L with stack := L.stack ++ b } vs cs L'

/-! ## The function bridge -/

mutual
/-- The content of a local `T value;` before anything is written to it: a
default-constructed string, `Function` or `Optional`; a scalar is left
indeterminate by C++ and stands here as zero. -/
def Val.dflt : (T : Ty) → Val T
  | .bool => false
  | .char => Char.ofNat 0
  | .int => (0 : Int)
  | .double => (0 : ℚ)
  | .string => ""
  | .string_view => ""
  | .cstring => ""
  | .pointer => (0 : Nat)
  | .function => emptyFunction
  | .optional t => ⟨false, Val.dflt t⟩
  | .tuple ts => Vals.dflt ts
/-- The same for the elements of a tuple. -/
def Vals.dflt : (ts : TyList) → Vals ts
  | .nil => ()
  | .cons t ts => (Val.dflt t, Vals.dflt ts)
end

/-- How a call into the bridge ends: it returns a value; or it throws a
`LuaCPP::Exception` with the message `what` (a host-level error); or it raises
a guest-level error with `lua_error`, the error value being `error`.  `lua` is
the runtime at that moment.  `ill_formed` stands for a call the header has no
instantiation for: the compiler rejects it. -/
inductive Outcome (α : Type)
  | returned (value : α) (lua : lua_State)
  | thrown (what : String) (lua : lua_State)
  | raised (error : LuaValue) (lua : lua_State)
  | ill_formed
  deriving DecidableEq

/-- The values of a return type: `none` is `void`. -/
def RetVal : Option Ty → Type
  | none => Unit
  | some T => Val T

/-- The typedef `CFunction` of `Function` (line 404), a
`std::function<T(TArgs...)>`: what a native closure does with its arguments
and the runtime. -/
abbrev CFunction (ret : Option Ty) (args : TyList) : Type :=
  Vals args → lua_State → Outcome (RetVal ret)

/-- What the runtime answers when a value is called with arguments: the call
returns results or fails with an error value; `lua` carries the registry and
the globals after the call. -/
inductive GuestResult
  | returns (results : List LuaValue) (lua : lua_State)
  | fails (error : LuaValue) (lua : lua_State)

/-- The behaviour of the guest program, which is not part of the header and is
taken as a parameter: the value called, its arguments, the runtime below them. -/
abbrev GuestCall : Type := LuaValue → List LuaValue → lua_State → GuestResult

/-- The constant `LUA_OK` of `lua.h`. -/
def LUA_OK : Int := 0

/-- The constant `LUA_ERRRUN` of `lua.h`. -/
def LUA_ERRRUN : Int := 2

/-- The constant `LUA_MULTRET` of `lua.h`. -/
def LUA_MULTRET : Int := -1

/-- The results of a call as the caller asked for them: all of them for
`LUA_MULTRET`, otherwise `nresults` of them, cut or filled up with `nil`. -/
def adjustResults (results : List LuaValue) (nresults : Int) : List LuaValue :=
  if nresults < 0 then results
  else (results ++ List.replicate nresults.toNat LuaValue.nil).take nresults.toNat

/-- The API function `lua_pcall(L, nargs, nresults, 0)`: the function and its
`nargs` arguments are taken off the stack; on success the results are pushed and
`LUA_OK` is returned; on failure the error value alone is pushed and an error
status is returned. -/
def lua_pcall (guest : GuestCall) (L : lua_State) (nargs : Nat) (nresults : Int) :
    Int × lua_State :=
  let base := L.stack.take (L.stack.length - (nargs + 1))
  let f := (L.stack[L.stack.length - (nargs + 1)]?).getD LuaValue.nil
  let args := L.stack.drop (L.stack.length - nargs)
  match guest f args { L with stack := base } with
  | .returns results L1 => (LUA_OK, { L1 with stack := base ++ adjustResults results nresults })
  | .fails error L1 => (LUA_ERRRUN, { L1 with stack := base ++ [error] })

/-- The API function `lua_call(L, nargs, nresults)`: as `lua_pcall`, but a
failure is not caught: the guest-level error goes on to whoever called. -/
def lua_call (guest : GuestCall) (L : lua_State) (nargs : Nat) (nresults : Int) :
    Outcome Unit :=
  let base := L.stack.take (L.stack.length - (nargs + 1))
  let f := (L.stack[L.stack.length - (nargs + 1)]?).getD LuaValue.nil
  let args := L.stack.drop (L.stack.length - nargs)
  match guest f args { L with stack := base } with
  | .returns results L1 => .returned () { L1 with stack := base ++ adjustResults results nresults }
  | .fails error L1 => .raised error { L1 with stack := base }

/-- The API function `lua_pushfstring`, given the text the format expands to. -/
def lua_pushfstring (L : lua_State) (text : String) : lua_State := push L (.string text)

/-- The API function `lua_error`: raises a guest-level error whose error value
is the value on top of the stack. -/
def lua_error {α : Type} (L : lua_State) : Outcome α :=
  .raised (L.stack.getLast?.getD LuaValue.nil) L

/-- The constructor `Exception(function, lua)` (lines 248-251): the message is
`lua_tostring(lua, -1)`, the text of the value on top of the stack, handed on as
a `const char*`: a `std::string` made from it ends at the first NUL.  (For a
top value that is neither a string nor a number C++ leaves the result
undefined; the empty text stands for it.) -/
def Exception_lua (cv : Conversions) (function : String) (L : lua_State) : String × lua_State :=
  match lua_tolstring cv L (lua_gettop L) with
  | (some message, L1) => (Exception function (c_str message), L1)
  | (none, L1) => (Exception function "", L1)

/-- `Function::Peek<I>` (lines 633-645): `LuaCPP::Peek(lua, 1 + I, value)` into a
fresh `value`; when it fails, the text `Error peeking arg #` with `1 + I` is
pushed and raised with `lua_error`. -/
def Function_Peek (cv : Conversions) (T : Ty) (L : lua_State) (I : Nat) : Outcome (Val T) :=
  let r := Peek cv T L (1 + I) (Val.dflt T)
  if !r.ok then lua_error (lua_pushfstring r.lua ("Error peeking arg #" ++ toString (1 + I)))
  else .returned r.value r.lua

/-- `CFunction::Detour::Peek<I>` (lines 736-748): the same text as `Function::Peek<I>`. -/
def CFunction_Peek (cv : Conversions) (T : Ty) (L : lua_State) (I : Nat) : Outcome (Val T) :=
  let r := Peek cv T L (1 + I) (Val.dflt T)
  if !r.ok then lua_error (lua_pushfstring r.lua ("Error peeking arg #" ++ toString (1 + I)))
  else .returned r.value r.lua

/-- `Function::Pop<I, TYPE>` (lines 616-632): `LuaCPP::Pop(lua, value)` into a
fresh `value`; when it fails, a text is pushed and raised with `lua_error`. -/
def Function_Pop (cv : Conversions) (I : Int) (T : Ty) [Classified T] (L : lua_State) :
    Outcome (Val T) :=
  let r := Pop cv T L (Val.dflt T)
  if !r.ok then
    if I = -1 then lua_error (lua_pushstring r.lua "Error popping return value")
    else lua_error (lua_pushfstring r.lua ("Error popping arg #" ++ toString (1 + I)))
  else .returned r.value r.lua

/-- The element type at a position of a list of types, counted from 0. -/
def TyList.get? : TyList → Nat → Option Ty
  | .nil, _ => none
  | .cons t _, 0 => some t
  | .cons _ ts, J + 1 => ts.get? J

/-- One expression `Peek<I>(lua)` of the pack expansion in the argument list of
the native closure: `peek` with the template argument `I`, for the type at
position `J` of `ts` (the two agree where the walk starts); what it returns
takes place `J` among the argument values. -/
def peekAt (peek : (T : Ty) → lua_State → Nat → Outcome (Val T)) (I : Nat) :
    (ts : TyList) → Nat → lua_State → Vals ts → Outcome (Vals ts)
  | .nil, _, L, vs => .returned vs L
  | .cons t _, 0, L, (_, vs) =>
      match peek t L I with
      | .returned v L1 => .returned (v, vs) L1
      | .thrown what L1 => .thrown what L1
      | .raised error L1 => .raised error L1
      | .ill_formed => .ill_formed
  | .cons _ ts, J + 1, L, (v, vs) =>
      match peekAt peek I ts J L vs with
      | .returned vs1 L1 => .returned (v, vs1) L1
      | .thrown what L1 => .thrown what L1
      | .raised error L1 => .raised error L1
      | .ill_formed => .ill_formed

/-- The pack expansion `Peek<I>(lua) ...` in the argument list of the native
closure (lines 419, 445, 730, 732).  C++ does not fix the order in which the
arguments of a call are evaluated: `order` is the order the compiler has
chosen, the positions `0 .. n-1` in the sequence they are evaluated in (from
left to right it is `[0, 1, ..]`, from right to left `[n-1, .., 0]`).  `vs`
holds the arguments evaluated so far.  A `lua_error` leaves the expansion at
once. -/
def peekArguments (peek : (T : Ty) → lua_State → Nat → Outcome (Val T)) (ts : TyList) :
    List Nat → lua_State → Vals ts → Outcome (Vals ts)
  | [], L, vs => .returned vs L
  | I :: rest, L, vs =>
      match peekAt peek I ts I L vs with
      | .returned vs1 L1 => peekArguments peek ts rest L1 vs1
      | .thrown what L1 => .thrown what L1
      | .raised error L1 => .raised error L1
      | .ill_formed => .ill_formed

/-- What the trampolines do with the result of the native closure: nothing for
`void` (they return 0), `Push<T_RETURN>` otherwise (they return its count). -/
def pushResult : (ret : Option Ty) → RetVal ret → lua_State → Outcome Nat
  | none, _, L => .returned 0 L
  | some T, result, L =>
      match Push T L result with
      | .returned count L1 => .returned count L1
      | .thrown what L1 => .thrown what L1

/-- `Function::Detour::C` (lines 412-422 for `void`, 438-446 otherwise): the
trampoline body.  The arguments are peeked, in the order `order`, then
`function` is called with them, then its result is pushed; the `int` returned
is the number of results. -/
def Detour_C (cv : Conversions) (ret : Option Ty) (args : TyList) (order : List Nat)
    (function : CFunction ret args) (L : lua_State) : Outcome Nat :=
  match peekArguments (Function_Peek cv) args order L (Vals.dflt args) with
  | .raised error L1 => .raised error L1
  | .thrown what L1 => .thrown what L1
  | .ill_formed => .ill_formed
  | .returned argv L1 =>
      match function argv L1 with
      | .raised error L2 => .raised error L2
      | .thrown what L2 => .thrown what L2
      | .ill_formed => .ill_formed
      | .returned result L2 => pushResult ret result L2

/-- `CFunction::Detour::Execute` (lines 722-733), the trampoline of a plain
function pointer `F`: the same steps with `CFunction::Detour::Peek`. -/
def CFunction_Execute (cv : Conversions) (ret : Option Ty) (args : TyList) (order : List Nat)
    (F : CFunction ret args) (L : lua_State) : Outcome Nat :=
  match peekArguments (CFunction_Peek cv) args order L (Vals.dflt args) with
  | .raised error L1 => .raised error L1
  | .thrown what L1 => .thrown what L1
  | .ill_formed => .ill_formed
  | .returned argv L1 =>
      match F argv L1 with
      | .raised error L2 => .raised error L2
      | .thrown what L2 => .thrown what L2
      | .ill_formed => .ill_formed
      | .returned result L2 => pushResult ret result L2

/-- `Function::ExecuteC` (lines 648-651): the entry point the runtime calls for
a closure made by `Push`; the native closure is the one of the `Context` in the
upvalue, `closures` telling what each closure does. -/
def ExecuteC (cv : Conversions) (ret : Option Ty) (args : TyList) (order : List Nat)
    (closures : Nat → CFunction ret args) (upvalue : Context) (L : lua_State) : Outcome Nat :=
  Detour_C cv ret args order (closures upvalue.function) L

/-- `Function::Detour::Lua` (lines 424-427 for `void`, 448-453 otherwise): the
arguments are pushed by the fold `(Push<T_ARGS>(lua, args) + ...)`, which is the
fold of `Tuple_Push`; then `lua_call`; then, unless the return type is `void`,
`Pop<-1, T_RETURN>(lua)`, which exists only for a return type the
`static_assert` of `Pop` admits. -/
def Detour_Lua (cv : Conversions) (guest : GuestCall) :
    (ret : Option Ty) → (args : TyList) → lua_State → Vals args → Outcome (RetVal ret)
  | none, args, L, argv =>
      match Tuple_Push args L argv with
      | .thrown what L1 => .thrown what L1
      | .returned count L1 => lua_call guest L1 count 0
  | some T, args, L, argv =>
      if h : Get_Type T.host ≠ Types.None then
        have : Classified T := ⟨h⟩
        match Tuple_Push args L argv with
        | .thrown what L1 => .thrown what L1
        | .returned count L1 =>
            match lua_call guest L1 count LUA_MULTRET with
            | .raised error L2 => .raised error L2
            | .thrown what L2 => .thrown what L2
            | .ill_formed => .ill_formed
            | .returned _ L2 => Function_Pop cv (-1) T L2
      else .ill_formed

/-- `Function::Detour::LuaProtected` (lines 428-432 for `void`, 454-460
otherwise): as `Detour::Lua` with `lua_pcall`; a status other than `LUA_OK`
throws `Exception("lua_pcall", lua)`.  The variant for a return type other
than `void` is ill-formed: its `throw Exception(lua, "lua_pcall")` (line 457)
matches no constructor and its `Pop<T_RETURN>(lua)` (line 459) no function. -/
def Detour_LuaProtected (cv : Conversions) (guest : GuestCall) :
    (ret : Option Ty) → (args : TyList) → lua_State → Vals args → Outcome (RetVal ret)
  | none, args, L, argv =>
      match Tuple_Push args L argv with
      | .thrown what L1 => .thrown what L1
      | .returned count L1 =>
          let (status, L2) := lua_pcall guest L1 count 0
          if status ≠ LUA_OK then
            .thrown (Exception_lua cv "lua_pcall" L2).1 (Exception_lua cv "lua_pcall" L2).2
          else .returned () L2
  | some _, _, _, _ => .ill_formed

/-- `Function::ExecuteLua` (lines 652-655). -/
def ExecuteLua (cv : Conversions) (guest : GuestCall) (ret : Option Ty) (args : TyList)
    (L : lua_State) (argv : Vals args) : Outcome (RetVal ret) :=
  Detour_Lua cv guest ret args L argv

/-- `Function::ExecuteLuaProtected` (lines 656-659). -/
def ExecuteLuaProtected (cv : Conversions) (guest : GuestCall) (ret : Option Ty) (args : TyList)
    (L : lua_State) (argv : Vals args) : Outcome (RetVal ret) :=
  Detour_LuaProtected cv guest ret args L argv

/-- `Function::Execute` (lines 538-555), on the runtime `L` the descriptor
belongs to: the switch on `context->type`, and the `throw` behind it. -/
def Execute (cv : Conversions) (guest : GuestCall) (ret : Option Ty) (args : TyList)
    (closures : Nat → CFunction ret args) (self : Function) (L : lua_State) (argv : Vals args) :
    Outcome (RetVal ret) :=
  match self.context.type with
  | .C => closures self.context.function argv L
  | .Lua =>
      let (type, L1) := lua_rawgeti L self.context.reference
      if type ≠ Types.Function then
        .thrown (Exception "LuaCPP::Function::Execute"
          ("lua_rawgeti returned " ++ toString type.toInt)) L1
      else ExecuteLua cv guest ret args L1 argv
  | .None =>
      .thrown (Exception "LuaCPP::Function::Execute" "context->type == FunctionTypes::None") L

/-- `Function::ExecuteProtected` (lines 557-574).  The `throw` of its `Lua`
case names `LuaCPP::Function::Execute`, as the source does. -/
def ExecuteProtected (cv : Conversions) (guest : GuestCall) (ret : Option Ty) (args : TyList)
    (closures : Nat → CFunction ret args) (self : Function) (L : lua_State) (argv : Vals args) :
    Outcome (RetVal ret) :=
  match self.context.type with
  | .C => closures self.context.function argv L
  | .Lua =>
      let (type, L1) := lua_rawgeti L self.context.reference
      if type ≠ Types.Function then
        .thrown (Exception "LuaCPP::Function::Execute"
          ("lua_rawgeti returned " ++ toString type.toInt)) L1
      else ExecuteLuaProtected cv guest ret args L1 argv
  | .None =>
      .thrown (Exception "LuaCPP::Function::ExecuteProtected"
        "context->type == FunctionTypes::None") L

/-- A guest program in which every call fails with the error string `boom`. -/
def failingGuest : GuestCall := fun _ _ L => .fails (.string "boom") L

/-- A guest program in which every call returns its arguments. -/
def echoGuest : GuestCall := fun _ args L => .returns args L

/-- A `Function` registered under reference 1. -/
def registeredFunction : Function := ⟨⟨.Lua, 0, 1⟩⟩

/-- A runtime with an empty stack whose registry holds a guest function under
reference 1. -/
def registeredState : lua_State := ⟨[], [.lfunction 0], []⟩

/-- A native closure that returns at once and leaves the runtime alone. -/
def idleClosure (ret : Option Ty) (args : TyList) (result : RetVal ret) : CFunction ret args :=
  fun _ L => .returned result L

instance (ret : Option Ty) : DecidableEq (RetVal ret) :=
  match ret with
  | none => (inferInstance : DecidableEq Unit)
  | some T => Val.decEq T

/-- The text `Error peeking arg #k` that `Function::Peek` and
`CFunction::Detour::Peek` format. -/
def peekErrorText (k : Nat) : String := "Error peeking arg #" ++ toString k

/-- With the declared argument types `ts` evaluated in the order `order` from
the runtime `L`, argument `k` is the first whose `Peek` fails: the arguments
evaluated before it were peeked, each at the stack index that is its position,
and succeeded, and `Peek` of the type of argument `k` at stack index `k`
returned `false`, leaving the runtime `L'`. -/
inductive ArgumentFails (cv : Conversions) (ts : TyList) :
    List Nat → lua_State → Nat → lua_State → Prop
  | here (I : Nat) (rest : List Nat) (t : Ty) (L : lua_State) :
      ts.get? I = some t →
        (Peek cv t L (1 + I) (Val.dflt t)).ok = false →
          ArgumentFails cv ts (I :: rest) L (1 + I) (Peek cv t L (1 + I) (Val.dflt t)).lua
  | later (I : Nat) (rest : List Nat) (t : Ty) (L : lua_State) (k : Nat) (L' : lua_State) :
      ts.get? I = some t →
        (Peek cv t L (1 + I) (Val.dflt t)).ok = true →
          ArgumentFails cv ts rest (Peek cv t L (1 + I) (Val.dflt t)).lua k L' →
            ArgumentFails cv ts (I :: rest) L k L'

/-- The statement of claim C14 at one call: `ExecuteProtected` throws a
host-level error whose `what()` is exactly `m`. -/
def ThrowsVerbatim (cv : Conversions) (guest : GuestCall) (ret : Option Ty) (args : TyList)
    (closures : Nat → CFunction ret args) (self : Function) (L : lua_State) (argv : Vals args)
    (m : String) : Prop :=
  ∃ L' : lua_State, ExecuteProtected cv guest ret args closures self L argv = .thrown m L'

/-- A guest program in which every call fails with an error string of three
bytes, the middle one a NUL. -/
def nulGuest : GuestCall :=
  fun _ _ L => .fails (.string (String.mk ['a', Char.ofNat 0, 'b'])) L

/-! ## Theorems -/

/-! ### The runtime model -/

theorem slot_push_top (L : lua_State) (v : LuaValue) :
    slot (push L v) (lua_gettop L + 1) = some v := by
  simp [slot, push, lua_gettop]

theorem lua_gettop_push (L : lua_State) (v : LuaValue) :
    lua_gettop (push L v) = lua_gettop L + 1 := by
  simp [push, lua_gettop]

theorem truncate_intCast (v : Int) : truncate ((v : Int) : ℚ) = v := by
  simp [truncate]

theorem bitLength_le (fuel : Nat) : ∀ (k n : Nat), n < 2 ^ k → bitLength fuel n ≤ k := by
  induction fuel with
  | zero => intro k n _; simp [bitLength]
  | succ fuel ih =>
      intro k n h
      unfold bitLength
      split
      · exact Nat.zero_le _
      · rename_i hn
        cases k with
        | zero => simp at h; exact absurd h hn
        | succ k =>
            have h2 : n / 2 < 2 ^ k := by
              rw [Nat.div_lt_iff_lt_mul (by decide)]
              rw [Nat.pow_succ] at h
              exact h
            exact Nat.succ_le_succ (ih k (n / 2) h2)

/-- An integer of magnitude below `2 ^ 53`, so every 32-bit `int`, converts to
`lua_Number` without rounding. -/
theorem roundToDouble_exact (v : Int) (h : v.natAbs < 2 ^ 53) :
    roundToDouble v = ((v : Int) : ℚ) := by
  have he : bitLength v.natAbs v.natAbs - 53 = 0 :=
    Nat.sub_eq_zero_of_le (bitLength_le _ _ _ h)
  unfold roundToDouble
  simp only [he, pow_zero, Nat.div_one, Nat.mod_one, Nat.mul_one]
  have hm : (if (1 / 2 < 0 ∨ 0 = 1 / 2 ∧ 0 < 0 ∧ v.natAbs % 2 = 1) then v.natAbs + 1 else v.natAbs)
      = v.natAbs := by simp
  rw [hm]
  by_cases hv : v < 0
  · simp only [hv, if_true]
    congr 1
    simp only [Int.ofNat_eq_coe]
    omega
  · simp only [hv, if_false]
    congr 1
    simp only [Int.ofNat_eq_coe]
    omega

theorem lua_pop_push (L : lua_State) (v : LuaValue) : lua_pop (push L v) 1 = L := by
  simp [lua_pop, push]

theorem slot_le_gettop (L : lua_State) (i : Nat) (v : LuaValue) (h : slot L i = some v) :
    ¬ (i > lua_gettop L) ∧ 0 < i := by
  cases i with
  | zero => simp [slot] at h
  | succ i =>
      simp only [slot] at h
      have := (List.getElem?_eq_some.mp h).1
      simp only [lua_gettop]
      omega

theorem getLast?_push (L : lua_State) (v : LuaValue) : (push L v).stack.getLast? = some v := by
  simp [push]


mutual
/-- When `Push` returns, it has added slots on top of the stack, as many as it
says and as many as `slotCount` says; nothing else has changed. -/
theorem Push_returned : ∀ (T : Ty) (L : lua_State) (v : Val T) (n : Nat) (L' : lua_State),
    Push T L v = .returned n L' →
      ∃ b : List LuaValue, L' = { L with stack := L.stack ++ b } ∧ b.length = n
        ∧ n = slotCount T v
  | .bool, L, v, n, L', h => by
      simp only [Push, Pushed.returned.injEq] at h
      exact ⟨[.number (boolToNumber v)], h.2.symm, h.1, by simp [slotCount, ← h.1]⟩
  | .char, L, v, n, L', h => by
      simp only [Push, Pushed.returned.injEq] at h
      exact ⟨[.string (String.singleton v)], h.2.symm, h.1, by simp [slotCount, ← h.1]⟩
  | .int, L, v, n, L', h => by
      simp only [Push, Pushed.returned.injEq] at h
      exact ⟨[.number (roundToDouble v)], h.2.symm, h.1, by simp [slotCount, ← h.1]⟩
  | .double, L, v, n, L', h => by
      simp only [Push, Pushed.returned.injEq] at h
      exact ⟨[.number v], h.2.symm, h.1, by simp [slotCount, ← h.1]⟩
  | .string, L, v, n, L', h => by
      simp only [Push, Pushed.returned.injEq] at h
      exact ⟨[.string v], h.2.symm, h.1, by simp [slotCount, ← h.1]⟩
  | .string_view, L, v, n, L', h => by
      simp only [Push, Pushed.returned.injEq] at h
      exact ⟨[.string v], h.2.symm, h.1, by simp [slotCount, ← h.1]⟩
  | .cstring, L, v, n, L', h => by
      simp only [Push, Pushed.returned.injEq] at h
      exact ⟨[.string (c_str v)], h.2.symm, h.1, by simp [slotCount, ← h.1]⟩
  | .pointer, L, v, n, L', h => by
      simp only [Push] at h
      split at h
      · simp only [Pushed.returned.injEq] at h
        exact ⟨[.nil], h.2.symm, h.1, by simp [slotCount, ← h.1]⟩
      · simp only [Pushed.returned.injEq] at h
        exact ⟨[.lightuserdata v], h.2.symm, h.1, by simp [slotCount, ← h.1]⟩
  | .function, L, v, n, L', h => by
      simp only [Push] at h
      split at h
      · rename_i hc
        simp only [Pushed.returned.injEq] at h
        exact ⟨[.cclosure v.context], h.2.symm, h.1, by simp [slotCount, ← h.1, hc]⟩
      · rename_i hc
        simp only [lua_rawgeti] at h
        split at h
        · exact absurd h (by simp)
        · simp only [Pushed.returned.injEq] at h
          exact ⟨[registryGet L v.context.reference], h.2.symm, h.1,
            by simp [slotCount, ← h.1, hc]⟩
      · rename_i hc
        simp only [Pushed.returned.injEq] at h
        exact ⟨[], by simp [← h.2], h.1, by simp [slotCount, ← h.1, hc]⟩
  | .optional t, L, v, n, L', h => by
      simp only [Push, Optional_Push] at h
      by_cases hs : v.is_set = true
      · simp only [hs, if_true] at h
        obtain ⟨b, hb, hl, hc⟩ := Push_returned t L v.value n L' h
        exact ⟨b, hb, hl, by simp [slotCount, hs, hc]⟩
      · simp only [hs] at h
        simp only [Bool.false_eq_true, if_false, Pushed.returned.injEq] at h
        exact ⟨[], by simp [← h.2], h.1, by simp [slotCount, hs, ← h.1]⟩
  | .tuple ts, L, v, n, L', h => by
      simp only [Push] at h
      obtain ⟨b, hb, hl, hc⟩ := Tuple_Push_returned ts L v n L' h
      exact ⟨b, hb, hl, by simp [slotCount, hc]⟩
/-- The same for `Tuple_Push`. -/
theorem Tuple_Push_returned : ∀ (ts : TyList) (L : lua_State) (vs : Vals ts) (n : Nat)
    (L' : lua_State), Tuple_Push ts L vs = .returned n L' →
      ∃ b : List LuaValue, L' = { L with stack := L.stack ++ b } ∧ b.length = n
        ∧ n = slotCounts ts vs
  | .nil, L, vs, n, L', h => by
      simp only [Tuple_Push, Pushed.returned.injEq] at h
      exact ⟨[], by simp [← h.2], h.1, by simp [slotCounts, ← h.1]⟩
  | .cons t ts, L, (v, vs), n, L', h => by
      simp only [Tuple_Push] at h
      split at h
      · exact absurd h (by simp)
      · rename_i c L1 h1
        split at h
        · exact absurd h (by simp)
        · rename_i c2 L2 h2
          simp only [Pushed.returned.injEq] at h
          obtain ⟨b1, hb1, hl1, hc1⟩ := Push_returned t L v c L1 h1
          obtain ⟨b2, hb2, hl2, hc2⟩ := Tuple_Push_returned ts L1 vs c2 L2 h2
          refine ⟨b1 ++ b2, ?_, ?_, ?_⟩
          · rw [← h.2, hb2, hb1]; simp
          · simp [hl1, hl2, h.1]
          · simp [slotCounts, ← h.1, hc1, hc2]
end


mutual
/-- `Push` of a value without a `Function` in it always returns. -/
theorem Push_functionFree : ∀ (T : Ty) (L : lua_State) (v : Val T),
    T.functionFree = true → ∃ L' : lua_State, Push T L v = .returned (slotCount T v) L'
  | .bool, L, v, _ => ⟨_, by simp only [Push, slotCount]; rfl⟩
  | .char, L, v, _ => ⟨_, by simp only [Push, slotCount]; rfl⟩
  | .int, L, v, _ => ⟨_, by simp only [Push, slotCount]; rfl⟩
  | .double, L, v, _ => ⟨_, by simp only [Push, slotCount]; rfl⟩
  | .string, L, v, _ => ⟨_, by simp only [Push, slotCount]; rfl⟩
  | .string_view, L, v, _ => ⟨_, by simp only [Push, slotCount]; rfl⟩
  | .cstring, L, v, _ => ⟨_, by simp only [Push, slotCount]; rfl⟩
  | .pointer, L, v, _ => by
      by_cases hv : v = (0 : Nat)
      · exact ⟨_, by simp only [Push, slotCount, hv, if_true]; rfl⟩
      · exact ⟨_, by simp only [Push, slotCount, hv, if_false]; rfl⟩
  | .function, L, v, h => by simp [Ty.functionFree] at h
  | .optional t, L, v, h => by
      simp only [Ty.functionFree] at h
      by_cases hs : v.is_set = true
      · obtain ⟨L', hL'⟩ := Push_functionFree t L v.value h
        exact ⟨L', by simp [Push, Optional_Push, slotCount, hs, hL']⟩
      · exact ⟨L, by simp [Push, Optional_Push, slotCount, hs]⟩
  | .tuple ts, L, v, h => by
      simp only [Ty.functionFree] at h
      obtain ⟨L', hL'⟩ := Tuple_Push_functionFree ts L v h
      exact ⟨L', by simp only [Push, slotCount, hL']⟩
/-- `Tuple_Push` of elements without a `Function` in them always returns. -/
theorem Tuple_Push_functionFree : ∀ (ts : TyList) (L : lua_State) (vs : Vals ts),
    ts.functionFree = true → ∃ L' : lua_State, Tuple_Push ts L vs = .returned (slotCounts ts vs) L'
  | .nil, L, vs, _ => ⟨L, by simp only [Tuple_Push, slotCounts]⟩
  | .cons t ts, L, (v, vs), h => by
      simp only [TyList.functionFree, Bool.and_eq_true] at h
      obtain ⟨L1, h1⟩ := Push_functionFree t L v h.1
      obtain ⟨L2, h2⟩ := Tuple_Push_functionFree ts L1 vs h.2
      exact ⟨L2, by simp only [Tuple_Push, slotCounts, h1, h2]⟩
end

/-- `Tuple_Push` returns exactly when its elements can be written one after the
other, and then it returns the sum of their counts. -/
theorem Tuple_Push_iff_elements : ∀ (ts : TyList) (L : lua_State) (vs : Vals ts) (n : Nat)
    (L' : lua_State), Tuple_Push ts L vs = .returned n L' ↔
      ∃ counts : List Nat, ElementsPushed ts L vs counts L' ∧ n = counts.sum
  | .nil, L, vs, n, L' => by
      simp only [Tuple_Push, ElementsPushed, Pushed.returned.injEq]
      constructor
      · rintro ⟨h1, h2⟩
        exact ⟨[], ⟨rfl, h2.symm⟩, by simp [← h1]⟩
      · rintro ⟨counts, ⟨hc, hL⟩, hn⟩
        subst hc
        exact ⟨by simp [hn], hL.symm⟩
  | .cons t ts, L, (v, vs), n, L' => by
      constructor
      · intro h
        simp only [Tuple_Push] at h
        split at h
        · exact absurd h (by simp)
        · rename_i c L1 h1
          split at h
          · exact absurd h (by simp)
          · rename_i c2 L2 h2
            simp only [Pushed.returned.injEq] at h
            obtain ⟨b, hb, hl, _⟩ := Push_returned t L v c L1 h1
            rw [h.2] at h2
            obtain ⟨cs, hcs, hsum⟩ := (Tuple_Push_iff_elements ts L1 vs c2 L').mp h2
            refine ⟨c :: cs, ?_, by simp [← h.1, hsum]⟩
            simp only [ElementsPushed]
            exact ⟨c, cs, b, rfl, by rw [h1, hb], hl, by rw [← hb]; exact hcs⟩
      · rintro ⟨counts, hE, hn⟩
        simp only [ElementsPushed] at hE
        obtain ⟨c, cs, b, hc, hP, _, hrest⟩ := hE
        have h2 := (Tuple_Push_iff_elements ts _ vs cs.sum L').mpr ⟨cs, hrest, rfl⟩
        simp only [Tuple_Push, hP, h2, hn, hc, List.sum_cons]

theorem slotCounts_scalars : ∀ (ts : TyList) (vs : Vals ts),
    ts.scalars = true → slotCounts ts vs = ts.length
  | .nil, _, _ => by simp [slotCounts, TyList.length]
  | .cons t ts, (v, vs), h => by
      simp only [TyList.scalars, Bool.and_eq_true] at h
      have ih := slotCounts_scalars ts vs h.2
      have h1 : slotCount t v = 1 := by
        cases t <;> first
          | (simp only [slotCount]; done)
          | (simp [Ty.leaf, Ty.functionFree] at h)
      simp only [slotCounts, TyList.length, ih, h1]
      omega


/-- `Pop` of a type other than a `Function` removes nothing when it fails:
`Peek` comes first and the one `lua_pop` is behind its success. -/
theorem Pop_scalar_failure_keeps_stack (cv : Conversions) (T : Ty) [inst : Classified T]
    (L : lua_State) (value : Val T) (hF : T.functionFree = true)
    (h : (Pop cv T L value).ok = false) : Pop cv T L value = ⟨false, value, L⟩ := by
  by_cases h0 : lua_gettop L = 0
  · cases T <;> first
      | (simp only [Pop, Pop_leaf, h0, if_true]; done)
      | (exact absurd rfl inst.static_assert)
  · have h1 : ¬ (1 > lua_gettop L) := by omega
    cases T with
    | bool => simp [Pop, Pop_leaf, h0, Peek, h1] at h
    | int => simp [Pop, Pop_leaf, h0, Peek, h1] at h
    | double => simp [Pop, Pop_leaf, h0, Peek, h1] at h
    | char =>
        revert h
        simp only [Pop, Pop_leaf, h0, Peek, h1, lua_tolstring, if_false]
        cases slot L 1 with
        | none => simp
        | some v => cases v <;> simp
    | string =>
        revert h
        simp only [Pop, Pop_leaf, h0, Peek, h1, lua_tolstring, if_false]
        cases slot L 1 with
        | none => simp
        | some v => cases v <;> simp
    | string_view =>
        revert h
        simp only [Pop, Pop_leaf, h0, Peek, h1, lua_tolstring, if_false]
        cases slot L 1 with
        | none => simp
        | some v => cases v <;> simp
    | cstring =>
        revert h
        simp only [Pop, Pop_leaf, h0, Peek, h1, lua_tolstring, if_false]
        cases slot L 1 with
        | none => simp
        | some v => cases v <;> simp
    | pointer =>
        revert h
        simp only [Pop, Pop_leaf, h0, Peek, h1, if_false]
        split <;> try split
        all_goals simp_all
    | function => simp [Ty.functionFree] at hF
    | optional t => exact absurd rfl inst.static_assert
    | tuple ts => exact absurd rfl inst.static_assert

/-- No call of the first `GetGlobal` returns 0: `lua_getglobal` never reports
`LUA_TNONE`. -/
theorem GetGlobal_never_returns_zero (cv : Conversions) (T : Ty) (L : lua_State)
    (name : String) (value : Val T) : (GetGlobal cv T L name value).1 ≠ 0 := by
  have hn : (globalGet L name).type ≠ Types.None := by
    cases globalGet L name <;> simp [LuaValue.type]
  simp only [GetGlobal, lua_getglobal, hn, dite_false]
  split <;> simp


/-- What the order of the `Is_*` tests means for a `bool`: `Peek` reads it with
`lua_tonumber`, so a slot holding the runtime's `true` is decoded as `false`. -/
theorem Peek_bool_of_true :
    Peek sampleConversions .bool (stackOf [.boolean true]) 1 false
      = ⟨true, false, stackOf [.boolean true]⟩ := by
  decide


theorem TyList.get?_lt : ∀ (ts : TyList) (J : Nat) (t : Ty), ts.get? J = some t → J < ts.length
  | .nil, _, _, h => by simp [TyList.get?] at h
  | .cons _ _, 0, _, _ => by simp [TyList.length]
  | .cons _ ts, J + 1, t, h => by
      simp only [TyList.get?] at h
      have := TyList.get?_lt ts J t h
      simp only [TyList.length]
      omega

theorem TyList.get?_of_lt : ∀ (ts : TyList) (J : Nat), J < ts.length → ∃ t : Ty, ts.get? J = some t
  | .nil, _, h => by simp [TyList.length] at h
  | .cons t _, 0, _ => ⟨t, rfl⟩
  | .cons _ ts, J + 1, h => by
      simp only [TyList.length] at h
      simpa only [TyList.get?] using TyList.get?_of_lt ts J (by omega)

/-- An expression of the pack expansion whose `peek` raises a guest error raises it. -/
theorem peekAt_raised (peek : (T : Ty) → lua_State → Nat → Outcome (Val T)) (I : Nat) :
    ∀ (ts : TyList) (J : Nat) (L : lua_State) (vs : Vals ts) (t : Ty) (e : LuaValue)
      (L1 : lua_State), ts.get? J = some t → peek t L I = .raised e L1 →
        peekAt peek I ts J L vs = .raised e L1
  | .nil, _, _, _, _, _, _, h, _ => by simp [TyList.get?] at h
  | .cons t0 _, 0, L, (v, vs), t, e, L1, h, hp => by
      simp only [TyList.get?, Option.some.injEq] at h
      subst h
      simp only [peekAt, hp]
  | .cons _ ts, J + 1, L, (v, vs), t, e, L1, h, hp => by
      simp only [TyList.get?] at h
      simp only [peekAt, peekAt_raised peek I ts J L vs t e L1 h hp]

/-- An expression of the pack expansion whose `peek` returns leaves the runtime
that `peek` leaves. -/
theorem peekAt_returned (peek : (T : Ty) → lua_State → Nat → Outcome (Val T)) (I : Nat) :
    ∀ (ts : TyList) (J : Nat) (L : lua_State) (vs : Vals ts) (t : Ty) (v : Val t)
      (L1 : lua_State), ts.get? J = some t → peek t L I = .returned v L1 →
        ∃ vs1 : Vals ts, peekAt peek I ts J L vs = .returned vs1 L1
  | .nil, _, _, _, _, _, _, h, _ => by simp [TyList.get?] at h
  | .cons t0 _, 0, L, (v0, vs), t, v, L1, h, hp => by
      simp only [TyList.get?, Option.some.injEq] at h
      subst h
      exact ⟨(v, vs), by simp only [peekAt, hp]⟩
  | .cons _ ts, J + 1, L, (v0, vs), t, v, L1, h, hp => by
      simp only [TyList.get?] at h
      obtain ⟨vs1, h1⟩ := peekAt_returned peek I ts J L vs t v L1 h hp
      exact ⟨(v0, vs1), by simp only [peekAt, h1]⟩

theorem Function_Peek_of_fail (cv : Conversions) (t : Ty) (L : lua_State) (I : Nat)
    (h : (Peek cv t L (1 + I) (Val.dflt t)).ok = false) :
    Function_Peek cv t L I
        = .raised (.string (peekErrorText (1 + I)))
            (lua_pushfstring (Peek cv t L (1 + I) (Val.dflt t)).lua (peekErrorText (1 + I)))
      ∧ CFunction_Peek cv t L I
        = .raised (.string (peekErrorText (1 + I)))
            (lua_pushfstring (Peek cv t L (1 + I) (Val.dflt t)).lua (peekErrorText (1 + I))) := by
  constructor
  · simp [Function_Peek, h, lua_error, lua_pushfstring, push, peekErrorText]
  · simp [CFunction_Peek, h, lua_error, lua_pushfstring, push, peekErrorText]

theorem Function_Peek_of_ok (cv : Conversions) (t : Ty) (L : lua_State) (I : Nat)
    (h : (Peek cv t L (1 + I) (Val.dflt t)).ok = true) :
    Function_Peek cv t L I
        = .returned (Peek cv t L (1 + I) (Val.dflt t)).value (Peek cv t L (1 + I) (Val.dflt t)).lua
      ∧ CFunction_Peek cv t L I
        = .returned (Peek cv t L (1 + I) (Val.dflt t)).value
            (Peek cv t L (1 + I) (Val.dflt t)).lua := by
  constructor
  · simp [Function_Peek, h]
  · simp [CFunction_Peek, h]

/-- When an argument fails, the pack expansion ends in the `lua_error` of that
argument, for both trampolines, whatever the order of evaluation is. -/
theorem peekArguments_fails (cv : Conversions) (ts : TyList) (order : List Nat) (L : lua_State)
    (k : Nat) (L1 : lua_State) (h : ArgumentFails cv ts order L k L1) :
    1 ≤ k ∧ k ≤ ts.length ∧ k - 1 ∈ order
      ∧ (∀ vs : Vals ts, peekArguments (Function_Peek cv) ts order L vs
          = .raised (.string (peekErrorText k)) (lua_pushfstring L1 (peekErrorText k)))
      ∧ (∀ vs : Vals ts, peekArguments (CFunction_Peek cv) ts order L vs
          = .raised (.string (peekErrorText k)) (lua_pushfstring L1 (peekErrorText k))) := by
  induction h with
  | here I rest t L hget hfail =>
      have hlt := TyList.get?_lt ts I t hget
      obtain ⟨hF, hC⟩ := Function_Peek_of_fail cv t L I hfail
      refine ⟨by omega, by omega, by simp, ?_, ?_⟩
      · intro vs
        simp only [peekArguments, peekAt_raised (Function_Peek cv) I ts I L vs t _ _ hget hF]
      · intro vs
        simp only [peekArguments, peekAt_raised (CFunction_Peek cv) I ts I L vs t _ _ hget hC]
  | later I rest t L k L' hget hok _ ih =>
      obtain ⟨h1, h2, h3, h4, h5⟩ := ih
      obtain ⟨hF, hC⟩ := Function_Peek_of_ok cv t L I hok
      refine ⟨h1, h2, List.mem_cons_of_mem _ h3, ?_, ?_⟩
      · intro vs
        obtain ⟨vs1, hv⟩ := peekAt_returned (Function_Peek cv) I ts I L vs t _ _ hget hF
        simp only [peekArguments, hv, h4 vs1]
      · intro vs
        obtain ⟨vs1, hv⟩ := peekAt_returned (CFunction_Peek cv) I ts I L vs t _ _ hget hC
        simp only [peekArguments, hv, h5 vs1]

/-- Every guest error that comes out of the pack expansion is the error of an
argument that fails: for an order that names positions of the argument list
only, the error names the first argument, in that order, whose `Peek` fails. -/
theorem peekArguments_raised (cv : Conversions) (ts : TyList) :
    ∀ (order : List Nat) (L : lua_State) (vs : Vals ts) (e : LuaValue) (L' : lua_State),
      (∀ I ∈ order, I < ts.length) →
        peekArguments (Function_Peek cv) ts order L vs = .raised e L' →
          ∃ (k : Nat) (L1 : lua_State), ArgumentFails cv ts order L k L1
            ∧ e = .string (peekErrorText k) ∧ L' = lua_pushfstring L1 (peekErrorText k)
  | [], L, vs, e, L', _, h => by simp [peekArguments] at h
  | I :: rest, L, vs, e, L', hr, h => by
      obtain ⟨t, hget⟩ := TyList.get?_of_lt ts I (hr I (by simp))
      by_cases hok : (Peek cv t L (1 + I) (Val.dflt t)).ok = true
      · obtain ⟨vs1, hv⟩ := peekAt_returned (Function_Peek cv) I ts I L vs t _ _ hget
          (Function_Peek_of_ok cv t L I hok).1
        simp only [peekArguments, hv] at h
        obtain ⟨k, L1, hk, he, hL⟩ := peekArguments_raised cv ts rest _ vs1 e L'
          (fun J hJ => hr J (List.mem_cons_of_mem _ hJ)) h
        exact ⟨k, L1, .later I rest t L k L1 hget hok hk, he, hL⟩
      · have hfail : (Peek cv t L (1 + I) (Val.dflt t)).ok = false := by simpa using hok
        have hp := peekAt_raised (Function_Peek cv) I ts I L vs t _ _ hget
          (Function_Peek_of_fail cv t L I hfail).1
        simp only [peekArguments, hp, Outcome.raised.injEq] at h
        exact ⟨1 + I, _, .here I rest t L hget hfail, h.1.symm, h.2.symm⟩

/-- `GetGlobalType` leaves the runtime as it found it. -/
theorem GetGlobalType_keeps_runtime (L : lua_State) (name : String) :
    (GetGlobalType L name).2 = L := by
  have hn : (globalGet L name).type ≠ Types.None := by
    cases globalGet L name <;> simp [LuaValue.type]
  simp [GetGlobalType, lua_getglobal, hn, lua_pop_push]

/-- Whenever the global is a function, the `Function` overload of `GetGlobal`
returns 1 and the value of the global stays on the stack. -/
theorem GetGlobal_Function_found_grows (L : lua_State) (name : String) (f : Function)
    (h : (globalGet L name).type = Types.Function) :
    (GetGlobal_Function L name f).1 = 1
      ∧ (GetGlobal_Function L name f).2.2.stack = L.stack ++ [globalGet L name] := by
  simp only [GetGlobal_Function, lua_getglobal, h, lua_pushvalue, luaL_ref, getLast?_push]
  cases (slot (push L (globalGet L name)) 1).getD LuaValue.nil <;>
    simp [lua_pop, push] <;> rw [List.take_append] <;> rfl

/-! ### The claims -/

/-- Claim C1, evaluated on the stack `[1, 2]` with `T = int`: `Pop` succeeds and
removes the top slot (the `2`), but the value it hands back is the `1` of the
bottom slot, because it calls `Peek<T>(lua, 1, value)`; `Peek` at the top slot
(index 2, the height) decodes `2`. -/
theorem Pop_decodes_bottom_slot :
    Pop sampleConversions .int (stackOf [.number 1, .number 2]) (0 : Int)
        = ⟨true, (1 : Int), stackOf [.number 1]⟩
      ∧ Peek sampleConversions .int (stackOf [.number 1, .number 2]) 2 (0 : Int)
        = ⟨true, (2 : Int), stackOf [.number 1, .number 2]⟩ := by
  decide

/-- Claim C2, on the code: `Push` of the tuple `(1, 2, 3)` writes the three
slots `1, 2, 3` and returns 3, and `Peek` of the tuple type at index 1 reads
them back in order; but there is no `Pop` to take a tuple off the stack:
`Get_Type` gives a tuple type the category `None`, so the `static_assert` at the
head of `Pop` rejects every tuple type. -/
theorem Pop_rejects_tuple :
    Push tuple_int3 emptyState ((1 : Int), (2 : Int), (3 : Int), ())
        = .returned 3 (stackOf [.number 1, .number 2, .number 3])
      ∧ Peek sampleConversions tuple_int3 (stackOf [.number 1, .number 2, .number 3]) 1
          ((0 : Int), (0 : Int), (0 : Int), ())
        = ⟨true, ((1 : Int), (2 : Int), (3 : Int), ()),
            stackOf [.number 1, .number 2, .number 3]⟩
      ∧ Get_Type tuple_int3.host = Types.None
      ∧ ∀ ts : TyList, ¬ Classified (.tuple ts) := by
  refine ⟨by decide, by decide, by decide, ?_⟩
  intro ts h
  exact h.static_assert rfl

/-- Claim C3: for every runtime and every scalar value `v` in the range of
`RoundTrips` (a `bool`, a `char`, a string with the empty one, a pointer with
the null one, an integer `lua_Number` represents exactly), `Push` returns 1
and leaves a stack one slot higher, and `Peek` of the same type at the new
slot returns `true`, yields `v` and leaves that runtime as it is. -/
theorem Push_Peek_roundtrip (cv : Conversions) (T : Ty) (L : lua_State) (v : Val T)
    (h : RoundTrips T v) :
    ∃ L1 : lua_State, Push T L v = .returned 1 L1
      ∧ lua_gettop L1 = lua_gettop L + 1
      ∧ ∀ value : Val T, Peek cv T L1 (lua_gettop L + 1) value = ⟨true, v, L1⟩ := by
  cases T with
  | bool =>
      refine ⟨_, by simp only [Push]; rfl, by simp [lua_gettop, lua_pushnumber, lua_pushlstring, lua_pushstring, push], ?_⟩
      intro value
      cases v <;>
        simp [Peek, lua_pushnumber, lua_gettop_push, lua_tonumber, slot_push_top, boolToNumber]
  | char =>
      refine ⟨_, by simp only [Push]; rfl, by simp [lua_gettop, lua_pushnumber, lua_pushlstring, lua_pushstring, push], ?_⟩
      intro value
      simp [Peek, lua_pushlstring, lua_gettop_push, lua_tolstring, slot_push_top,
        String.singleton]
  | int =>
      refine ⟨_, by simp only [Push]; rfl, by simp [lua_gettop, lua_pushnumber, lua_pushlstring, lua_pushstring, push], ?_⟩
      intro value
      have h1 : roundToDouble v = ((show Int from v : Int) : ℚ) := h
      simp [Peek, lua_pushnumber, lua_gettop_push, lua_tonumber, slot_push_top, h1,
        truncate_intCast]
  | double =>
      refine ⟨_, by simp only [Push]; rfl, by simp [lua_gettop, lua_pushnumber, lua_pushlstring, lua_pushstring, push], ?_⟩
      intro value
      simp [Peek, lua_pushnumber, lua_gettop_push, lua_tonumber, slot_push_top]
  | string =>
      refine ⟨_, by simp only [Push]; rfl, by simp [lua_gettop, lua_pushnumber, lua_pushlstring, lua_pushstring, push], ?_⟩
      intro value
      simp [Peek, lua_pushlstring, lua_gettop_push, lua_tolstring, slot_push_top]
  | string_view =>
      refine ⟨_, by simp only [Push]; rfl, by simp [lua_gettop, lua_pushnumber, lua_pushlstring, lua_pushstring, push], ?_⟩
      intro value
      simp [Peek, lua_pushlstring, lua_gettop_push, lua_tolstring, slot_push_top]
  | cstring =>
      refine ⟨_, by simp only [Push]; rfl, by simp [lua_gettop, lua_pushnumber, lua_pushlstring, lua_pushstring, push], ?_⟩
      intro value
      have h1 : c_str v = v := h
      simp [Peek, lua_pushstring, lua_gettop_push, lua_tolstring, slot_push_top, h1]
  | pointer =>
      by_cases hv : v = (0 : Nat)
      · refine ⟨lua_pushnil L, by simp [Push, hv], lua_gettop_push _ _, ?_⟩
        intro value
        simp [Peek, lua_pushnil, lua_gettop_push, lua_touserdata, lua_isnil, lua_type,
          slot_push_top, LuaValue.type, hv]
      · refine ⟨lua_pushlightuserdata L v, by simp [Push, hv], lua_gettop_push _ _, ?_⟩
        intro value
        simp [Peek, lua_pushlightuserdata, lua_gettop_push, lua_touserdata, slot_push_top, hv]
  | function => exact absurd h (by simp [RoundTrips])
  | optional t => exact absurd h (by simp [RoundTrips])
  | tuple ts => exact absurd h (by simp [RoundTrips])

/-- Claim C3 at the integer `-7` on a stack that already holds a table. -/
theorem Push_Peek_roundtrip_witness :
    RoundTrips .int (-7 : Int)
      ∧ ∃ L1 : lua_State, Push .int (stackOf [.table 0]) (-7 : Int) = .returned 1 L1
        ∧ lua_gettop L1 = lua_gettop (stackOf [.table 0]) + 1
        ∧ ∀ value : Val .int,
            Peek sampleConversions .int L1 (lua_gettop (stackOf [.table 0]) + 1) value
              = ⟨true, (-7 : Int), L1⟩ :=
  ⟨by show roundToDouble (-7) = (((-7 : Int) : Int) : ℚ); decide,
    Push_Peek_roundtrip sampleConversions .int (stackOf [.table 0]) (-7 : Int)
      (by show roundToDouble (-7) = (((-7 : Int) : Int) : ℚ); decide)⟩

/-- Claim C4, on the code: for a name that is not defined as a global, both
overloads of `GetGlobal` return -1, the "wrong type" result, and never 0
(`lua_getglobal` reports `LUA_TNIL` for such a name, not `LUA_TNONE`); the
out-parameter and the runtime are left as they were. -/
theorem GetGlobal_undefined_returns_wrong_type (cv : Conversions) (T : Ty) (L : lua_State)
    (name : String) (value : Val T) (f : Function)
    (h : L.globals.find? (fun g => g.1 = name) = none) :
    GetGlobal cv T L name value = (-1, value, L)
      ∧ GetGlobal_Function L name f = (-1, f, L) := by
  have hg : globalGet L name = .nil := by simp [globalGet, h]
  constructor
  · have ht : Types.Null ≠ Get_Type T.host := by cases T <;> simp only [Ty.host] <;> decide
    simp [GetGlobal, lua_getglobal, hg, LuaValue.type, ht, lua_pop_push]
  · simp [GetGlobal_Function, lua_getglobal, hg, LuaValue.type, lua_pop_push]

/-- Claim C4 at the name `x` in a runtime without globals, asked for an `int`
and for a `Function`. -/
theorem GetGlobal_undefined_returns_wrong_type_witness :
    emptyState.globals.find? (fun g => g.1 = "x") = none
      ∧ GetGlobal sampleConversions .int emptyState "x" (0 : Int) = (-1, (0 : Int), emptyState)
      ∧ GetGlobal_Function emptyState "x" emptyFunction = (-1, emptyFunction, emptyState) :=
  ⟨by decide,
    GetGlobal_undefined_returns_wrong_type sampleConversions .int emptyState "x" (0 : Int)
      emptyFunction (by decide)⟩

/-- Claim C5, on the code: `Get_Type<bool>` is `Types::Number`, not
`Types::Boolean`.  `Is_Number` is decided before `Is_Boolean`, and `bool` is an
integral type, so `Is_Number<bool>` holds although `Is_Boolean<bool>` holds too;
no type at all is classified as `Types::Boolean`. -/
theorem Get_Type_bool_is_Number :
    Get_Type .bool = Types.Number ∧ Is_Number .bool = true ∧ Is_Boolean .bool = true
      ∧ ∀ T : HostType, Get_Type T ≠ Types.Boolean := by
  refine ⟨by decide, by decide, by decide, ?_⟩
  intro T
  cases T <;> decide

/-- Claim C6 as stated fails: on a stack whose one slot holds a table, `Peek` of
an `int` (category Number) returns `true`. -/
theorem Peek_Number_accepts_table :
    ¬ RejectsWrongType sampleConversions .int (stackOf [.table 7]) 1 := by
  intro h
  have h1 := h (.table 7) (by decide) (by decide) (0 : Int)
  revert h1
  decide

/-- Claim C6, amended: for every leaf type, `Peek` returns `false` (and changes
neither `value` nor the runtime) when the index is above the top of the stack;
on a slot that is there it compares no type tags: for a leaf type other than
`bool` it returns `true` exactly for the values `accepts` lists. -/
theorem Peek_leaf_result (cv : Conversions) (T : Ty) (L : lua_State) (index : Nat)
    (value : Val T) (hT : T.leaf = true) :
    (lua_gettop L < index → Peek cv T L index value = ⟨false, value, L⟩)
      ∧ (T.host ≠ HostType.bool → ∀ v : LuaValue, slot L index = some v →
          (Peek cv T L index value).ok = accepts T v) := by
  constructor
  · intro h
    have h1 : index > lua_gettop L := h
    cases T <;> first
      | (simp only [Peek, h1, if_true]; done)
      | (simp [Ty.leaf] at hT)
  · intro _ v hv
    have h1 := (slot_le_gettop L index v hv).1
    cases T with
    | bool => simp [Peek, h1, accepts]
    | int => simp [Peek, h1, accepts]
    | double => simp [Peek, h1, accepts]
    | char => cases v <;> simp [Peek, h1, accepts, lua_tolstring, hv, LuaValue.type]
    | string => cases v <;> simp [Peek, h1, accepts, lua_tolstring, hv, LuaValue.type]
    | string_view => cases v <;> simp [Peek, h1, accepts, lua_tolstring, hv, LuaValue.type]
    | cstring => cases v <;> simp [Peek, h1, accepts, lua_tolstring, hv, LuaValue.type]
    | pointer =>
        cases v <;>
          simp [Peek, h1, accepts, lua_touserdata, lua_isnil, lua_type, hv, LuaValue.type] <;>
          split <;> simp_all
    | function =>
        cases v <;>
          simp [Peek, h1, accepts, lua_pushvalue, hv, luaL_ref, getLast?_push, LUA_REFNIL] <;>
          split <;> first | omega | rfl
    | optional t => simp [Ty.leaf] at hT
    | tuple ts => simp [Ty.leaf] at hT

/-- Claim C6, amended, at `std::string` on the stack `[table, 12]`: index 3 is
above the top and `Peek` returns `false` without a change; at index 1 the table
is refused; at index 2 the number is taken. -/
theorem Peek_leaf_result_witness :
    Ty.leaf .string = true
      ∧ Peek sampleConversions .string (stackOf [.table 7, .integer 12]) 3 ""
          = ⟨false, "", stackOf [.table 7, .integer 12]⟩
      ∧ (Peek sampleConversions .string (stackOf [.table 7, .integer 12]) 1 "").ok
          = accepts .string (.table 7)
      ∧ accepts .string (.table 7) = false
      ∧ (Peek sampleConversions .string (stackOf [.table 7, .integer 12]) 2 "").ok
          = accepts .string (.integer 12)
      ∧ accepts .string (.integer 12) = true :=
  ⟨by decide,
    (Peek_leaf_result sampleConversions .string (stackOf [.table 7, .integer 12]) 3 ""
      (by decide)).1 (by decide),
    (Peek_leaf_result sampleConversions .string (stackOf [.table 7, .integer 12]) 1 ""
      (by decide)).2 (by decide) (.table 7) (by decide),
    by decide,
    (Peek_leaf_result sampleConversions .string (stackOf [.table 7, .integer 12]) 2 ""
      (by decide)).2 (by decide) (.integer 12) (by decide),
    by decide⟩

/-- Claim C7, evaluated on the stack `[nil, 5]` with a `Function` type and index
1: `Peek` returns `false` and the stack it leaves is `[nil]`, one slot lower:
`luaL_ref` has already taken the copy of the `nil` off, and the `lua_pop` that
follows takes the slot that held `5`. -/
theorem Peek_Function_nil_removes_top :
    Peek sampleConversions .function (stackOf [.nil, .number 5]) 1 emptyFunction
      = ⟨false, emptyFunction, stackOf [.nil]⟩ := by
  decide

/-- Claim C9, evaluated at the tuple `((1, 2), 3)`: `Push` writes the slots
`1, 2, 3` from index 1, and `Tuple_Peek` at index 1 yields `((1, 2), 2)`: the
element after the nested 2-tuple is read at `index + 1`, its position in the
tuple, not at `index + 2`. -/
theorem Tuple_Peek_nested_offset :
    Push tuple_nested emptyState (((1 : Int), (2 : Int), ()), (3 : Int), ())
        = .returned 3 (stackOf [.number 1, .number 2, .number 3])
      ∧ Peek sampleConversions tuple_nested (stackOf [.number 1, .number 2, .number 3]) 1
          (((0 : Int), (0 : Int), ()), (0 : Int), ())
        = ⟨true, (((1 : Int), (2 : Int), ()), (2 : Int), ()),
            stackOf [.number 1, .number 2, .number 3]⟩ := by
  decide

/-- Claim C10: `Tuple_Push` writes the elements from left to right, each
element's slots directly above the previous element's (`ElementsPushed`), and
what it returns is the sum of the counts `Push` returned for the elements;
that sum is the number of slots the stack has grown by, it is the sum of the
elements' slot counts (so 0 for an `Optional` that is not set), and it is the
number of elements when they are all scalars.  A tuple without a `Function` in
it is always written. -/
theorem Tuple_Push_spec (ts : TyList) (L : lua_State) (vs : Vals ts) :
    (∀ (n : Nat) (L' : lua_State), Tuple_Push ts L vs = .returned n L' ↔
        ∃ counts : List Nat, ElementsPushed ts L vs counts L' ∧ n = counts.sum)
      ∧ (∀ (n : Nat) (L' : lua_State), Tuple_Push ts L vs = .returned n L' →
          lua_gettop L' = lua_gettop L + n ∧ n = slotCounts ts vs)
      ∧ (ts.functionFree = true →
          ∃ L' : lua_State, Tuple_Push ts L vs = .returned (slotCounts ts vs) L')
      ∧ (ts.scalars = true → slotCounts ts vs = ts.length) := by
  refine ⟨fun n L' => Tuple_Push_iff_elements ts L vs n L', ?_,
    Tuple_Push_functionFree ts L vs, slotCounts_scalars ts vs⟩
  intro n L' h
  obtain ⟨b, hb, hl, hc⟩ := Tuple_Push_returned ts L vs n L' h
  exact ⟨by simp [lua_gettop, hb, hl], hc⟩

/-- Claim C10 at the tuple `('a', unset Optional<int>, "xy")` on a stack that
holds one value: two slots are written, in the order of the elements. -/
theorem Tuple_Push_spec_witness :
    Tuple_Push (.cons .char (.cons (.optional .int) (.cons .string .nil)))
        (stackOf [.boolean true]) ('a', ⟨false, (0 : Int)⟩, "xy", ())
      = .returned 2 (stackOf [.boolean true, .string "a", .string "xy"])
      ∧ lua_gettop (stackOf [.boolean true, .string "a", .string "xy"])
          = lua_gettop (stackOf [.boolean true]) + 2
      ∧ 2 = slotCounts (.cons .char (.cons (.optional .int) (.cons .string .nil)))
          ('a', ⟨false, (0 : Int)⟩, "xy", ()) :=
  ⟨by decide,
    (Tuple_Push_spec (.cons .char (.cons (.optional .int) (.cons .string .nil)))
      (stackOf [.boolean true]) ('a', ⟨false, (0 : Int)⟩, "xy", ())).2.1 2
      (stackOf [.boolean true, .string "a", .string "xy"]) (by decide)⟩

/-- Claim C11, on the code.  There is no `Pop` of an `Optional`: `Get_Type` gives
every `Optional<T>` the category `None`, so the `static_assert` at the head of
`Pop` rejects it, although the body of `Optional_Pop` does what the claim says
(it returns `true` and stores the inner result in `is_set`).  The `Peek` half of
the claim holds: `Peek` of an `Optional<T>` returns `true` on every stack and at
every index, `is_set` is what `Peek<T>` returns there, and for an inner type
`Optional` can be instantiated with it is `false` at an index above the top. -/
theorem Pop_rejects_Optional (cv : Conversions) (t : Ty) (L : lua_State) (index : Nat)
    (value : Optional (Val t)) :
    ¬ Classified (.optional t)
      ∧ (∀ pop : Val t → Out (Val t), (Optional_Pop pop value).ok = true
          ∧ (Optional_Pop pop value).value.is_set = (pop value.value).ok)
      ∧ (Peek cv (.optional t) L index value).ok = true
      ∧ Optional.is_set (Peek cv (.optional t) L index value).value
          = (Peek cv t L index value.value).ok
      ∧ (Get_Type t.host ≠ Types.None → lua_gettop L < index →
          Optional.is_set (Peek cv (.optional t) L index value).value = false) := by
  refine ⟨fun h => h.static_assert rfl, fun pop => by simp [Optional_Pop],
    by simp [Peek, Optional_Peek], by simp [Peek, Optional_Peek], ?_⟩
  intro hT h
  have h1 : index > lua_gettop L := h
  simp only [Peek, Optional_Peek]
  cases t <;> first
    | (simp only [Peek, h1, if_true]; done)
    | (exact absurd (by simp only [Ty.host]; decide) hT)

/-- Claim C11 at an `Optional<int>` on the empty stack, index 1. -/
theorem Pop_rejects_Optional_witness :
    ¬ Classified (.optional .int)
      ∧ (Peek sampleConversions (.optional .int) emptyState 1 ⟨true, (9 : Int)⟩).ok = true
      ∧ Optional.is_set (Peek sampleConversions (.optional .int) emptyState 1
          ⟨true, (9 : Int)⟩).value = false :=
  ⟨(Pop_rejects_Optional sampleConversions .int emptyState 1 ⟨true, (9 : Int)⟩).1,
    (Pop_rejects_Optional sampleConversions .int emptyState 1 ⟨true, (9 : Int)⟩).2.2.1,
    (Pop_rejects_Optional sampleConversions .int emptyState 1
      ⟨true, (9 : Int)⟩).2.2.2.2 (by decide) (by decide)⟩

/-- Claim C12: `Push` of an `Optional<T>` that is not set returns 0 and leaves
the runtime as it is; `Push` of one that is set is `Push<T>` of its value, in
effect and in result. -/
theorem Optional_Push_spec (t : Ty) (L : lua_State) (o : Optional (Val t)) :
    (o.is_set = false → Push (.optional t) L o = .returned 0 L)
      ∧ (o.is_set = true → Push (.optional t) L o = Push t L o.value) := by
  constructor
  · intro h
    simp [Push, Optional_Push, h]
  · intro h
    simp [Push, Optional_Push, h]

/-- Claim C12 at an `Optional<int>` that is not set and at one that holds 7. -/
theorem Optional_Push_spec_witness :
    Push (.optional .int) (stackOf [.nil]) ⟨false, (7 : Int)⟩ = .returned 0 (stackOf [.nil])
      ∧ Push (.optional .int) (stackOf [.nil]) ⟨true, (7 : Int)⟩
          = Push .int (stackOf [.nil]) (7 : Int) :=
  ⟨(Optional_Push_spec .int (stackOf [.nil]) ⟨false, (7 : Int)⟩).1 rfl,
    (Optional_Push_spec .int (stackOf [.nil]) ⟨true, (7 : Int)⟩).2 rfl⟩

/-- Claim C13: on a descriptor whose backing kind is `None`, as the default
constructor leaves it, `Execute` and `ExecuteProtected` throw a
`LuaCPP::Exception` whose message names the operation, whatever the arguments,
the native closures and the guest program are (so none of them is run), and
the runtime is left as it is. -/
theorem Execute_empty_throws (cv : Conversions) (guest : GuestCall) (ret : Option Ty)
    (args : TyList) (closures : Nat → CFunction ret args) (self : Function) (L : lua_State)
    (argv : Vals args) (h : self.context.type = FunctionTypes.None) :
    Execute cv guest ret args closures self L argv
        = .thrown "context->type == FunctionTypes::None [Function: LuaCPP::Function::Execute]" L
      ∧ ExecuteProtected cv guest ret args closures self L argv
        = .thrown
            "context->type == FunctionTypes::None [Function: LuaCPP::Function::ExecuteProtected]"
            L := by
  constructor
  · simp only [Execute, h]
    rfl
  · simp only [ExecuteProtected, h]
    rfl

/-- Claim C13 at the default-constructed `Function`, called with `(3, 4)` on a
stack that holds one value. -/
theorem Execute_empty_throws_witness :
    emptyFunction.context.type = FunctionTypes.None
      ∧ Execute sampleConversions echoGuest (some .int) (.cons .int (.cons .int .nil))
          (fun _ => idleClosure _ _ (0 : Int)) emptyFunction (stackOf [.nil])
          ((3 : Int), (4 : Int), ())
        = .thrown "context->type == FunctionTypes::None [Function: LuaCPP::Function::Execute]"
            (stackOf [.nil])
      ∧ ExecuteProtected sampleConversions echoGuest (some .int) (.cons .int (.cons .int .nil))
          (fun _ => idleClosure _ _ (0 : Int)) emptyFunction (stackOf [.nil])
          ((3 : Int), (4 : Int), ())
        = .thrown
            "context->type == FunctionTypes::None [Function: LuaCPP::Function::ExecuteProtected]"
            (stackOf [.nil]) :=
  ⟨rfl, Execute_empty_throws sampleConversions echoGuest (some .int)
    (.cons .int (.cons .int .nil)) (fun _ => idleClosure _ _ (0 : Int)) emptyFunction
    (stackOf [.nil]) ((3 : Int), (4 : Int), ()) rfl⟩

/-- Claim C14 as stated fails: with a guest whose call fails with the error
string `boom`, the message of the error `ExecuteProtected` throws is not `boom`. -/
theorem ExecuteProtected_message_not_verbatim :
    ¬ ThrowsVerbatim sampleConversions failingGuest none (.cons .int .nil)
        (fun _ => idleClosure none _ ()) registeredFunction registeredState ((3 : Int), ())
        "boom" := by
  rintro ⟨L', h⟩
  have e : ExecuteProtected sampleConversions failingGuest none (.cons .int .nil)
      (fun _ => idleClosure none _ ()) registeredFunction registeredState ((3 : Int), ())
      = .thrown "boom [Function: lua_pcall]" ⟨[.string "boom"], [.lfunction 0], []⟩ := by
    decide
  rw [e] at h
  have h1 := (Outcome.thrown.inj h).1
  revert h1
  decide

/-- Claim C14, amended: for a registered descriptor of return type `void` whose
registry slot holds a function, once the arguments are pushed and `lua_pcall`
reports a failure that leaves the error string `m` on top of the stack,
`ExecuteProtected` throws a host-level error whose message is `m` as a C string
(all of `m`, or `m` up to its first NUL) followed by the tag
` [Function: lua_pcall]`; the error string stays on the stack. -/
theorem ExecuteProtected_error_message (cv : Conversions) (guest : GuestCall) (args : TyList)
    (closures : Nat → CFunction none args) (self : Function) (L : lua_State) (argv : Vals args)
    (count : Nat) (L1 : lua_State) (status : Int) (L2 : lua_State) (m : String)
    (hLua : self.context.type = FunctionTypes.Lua)
    (hfn : (registryGet L self.context.reference).type = Types.Function)
    (hpush : Tuple_Push args (lua_rawgeti L self.context.reference).2 argv = .returned count L1)
    (hcall : lua_pcall guest L1 count 0 = (status, L2))
    (hfail : status ≠ LUA_OK)
    (htop : slot L2 (lua_gettop L2) = some (.string m)) :
    ExecuteProtected cv guest none args closures self L argv
      = .thrown (c_str m ++ " [Function: lua_pcall]") L2 := by
  have hx : Exception_lua cv "lua_pcall" L2 = (c_str m ++ " [Function: lua_pcall]", L2) := by
    simp only [Exception_lua, lua_tolstring, htop, Exception]
    simp [String.append_assoc]
  have hr : lua_rawgeti L self.context.reference
      = (Types.Function, (lua_rawgeti L self.context.reference).2) := by
    simp [lua_rawgeti, hfn]
  simp only [ExecuteProtected, hLua]
  rw [hr]
  simp only [ne_eq, not_true_eq_false, if_false, ExecuteLuaProtected, Detour_LuaProtected,
    hpush, hcall, hfail, not_false_eq_true, if_true, hx]

/-- Claim C14, amended, with a guest whose call fails with the three bytes `a`,
NUL, `b`: the message starts with `a` alone. -/
theorem ExecuteProtected_error_message_witness :
    ExecuteProtected sampleConversions nulGuest none (.cons .int .nil)
        (fun _ => idleClosure none _ ()) registeredFunction registeredState ((3 : Int), ())
      = .thrown (c_str (String.mk ['a', Char.ofNat 0, 'b']) ++ " [Function: lua_pcall]")
          ⟨[.string (String.mk ['a', Char.ofNat 0, 'b'])], [.lfunction 0], []⟩
      ∧ c_str (String.mk ['a', Char.ofNat 0, 'b']) ++ " [Function: lua_pcall]"
          = "a [Function: lua_pcall]" :=
  ⟨ExecuteProtected_error_message sampleConversions nulGuest (.cons .int .nil)
    (fun _ => idleClosure none _ ()) registeredFunction registeredState ((3 : Int), ())
    1 ⟨[.lfunction 0, .number 3], [.lfunction 0], []⟩ LUA_ERRRUN
    ⟨[.string (String.mk ['a', Char.ofNat 0, 'b'])], [.lfunction 0], []⟩
    (String.mk ['a', Char.ofNat 0, 'b'])
    (by decide) (by decide) (by decide) (by decide) (by decide) (by decide), by decide⟩

/-- Claim C15: when the guest calls a native closure and, in the order in which
the arguments are evaluated, argument `k` is the first whose `Peek` (of the
type declared for it, at stack index `k`) fails, `k` is one of the positions
`1 .. n` and both trampolines end in a guest-level error, raised with
`lua_error`, whose error value is the text `Error peeking arg #k`; this holds
whatever the order of evaluation and whatever the native closure is, so the
closure is not called. -/
theorem trampoline_argument_error (cv : Conversions) (ret : Option Ty) (args : TyList)
    (order : List Nat) (L : lua_State) (k : Nat) (L1 : lua_State)
    (h : ArgumentFails cv args order L k L1) :
    1 ≤ k ∧ k ≤ args.length
      ∧ (∀ function : CFunction ret args,
          Detour_C cv ret args order function L
            = .raised (.string (peekErrorText k)) (lua_pushfstring L1 (peekErrorText k)))
      ∧ (∀ F : CFunction ret args,
          CFunction_Execute cv ret args order F L
            = .raised (.string (peekErrorText k)) (lua_pushfstring L1 (peekErrorText k))) := by
  obtain ⟨h1, h2, _, h3, h4⟩ := peekArguments_fails cv args order L k L1 h
  refine ⟨h1, h2, ?_, ?_⟩
  · intro function
    simp only [Detour_C, h3]
  · intro F
    simp only [CFunction_Execute, h4]

/-- Claim C15 for a closure declared `int(int, int)` called on the empty stack,
with the arguments evaluated from right to left: the second argument is the
first to fail, and the error says so. -/
theorem trampoline_argument_error_witness :
    ArgumentFails sampleConversions (.cons .int (.cons .int .nil)) [1, 0] emptyState 2 emptyState
      ∧ Detour_C sampleConversions (some .int) (.cons .int (.cons .int .nil)) [1, 0]
          (idleClosure _ _ (7 : Int)) emptyState
        = .raised (.string (peekErrorText 2)) (lua_pushfstring emptyState (peekErrorText 2))
      ∧ peekErrorText 2 = "Error peeking arg #2" :=
  have h : ArgumentFails sampleConversions (.cons .int (.cons .int .nil)) [1, 0] emptyState 2
      emptyState :=
    .here 1 [0] .int emptyState rfl (by decide)
  ⟨h, (trampoline_argument_error sampleConversions (some .int) (.cons .int (.cons .int .nil))
      [1, 0] emptyState 2 emptyState h).2.2.1 (idleClosure _ _ (7 : Int)), by decide⟩

/-- Claim C16, evaluated on a runtime whose stack holds `5` and whose global `f`
is a guest function: the `Function` overload of `GetGlobal` returns 1 and leaves
the stack `[5, f]`, one slot higher than before; the reference it stores names
the registry entry `5`, the value of stack index 1, not the function. -/
theorem GetGlobal_Function_leaves_slot :
    GetGlobal_Function ⟨[.number 5], [], [("f", .lfunction 3)]⟩ "f" emptyFunction
        = (1, ⟨⟨.Lua, 0, 1⟩⟩, ⟨[.number 5, .lfunction 3], [.number 5], [("f", .lfunction 3)]⟩)
      ∧ registryGet ⟨[.number 5, .lfunction 3], [.number 5], [("f", .lfunction 3)]⟩ 1
        = .number 5
      ∧ globalGet ⟨[.number 5], [], [("f", .lfunction 3)]⟩ "f" = .lfunction 3 := by
  decide

end LuaCPP
